import Mathlib

/-!
# hzaddr: packet codec and address handshake

A shallow embedding of `src/main.c`: the CRC16 routine, the in-memory `struct Packet`,
`set_src`, `sendPkt`, `receivePkt` and `main`, followed by theorems about them.

Conventions of the embedding.

* An `unsigned char` is a `Byte` (`Fin 256`); an `unsigned short` is a natural number kept
  below `65536` by an explicit `% 65536`.
* `struct Packet` is compiled under `#pragma pack(1)`, so it is exactly ten bytes of memory.
  The code reads and writes that memory both through the fields and through raw pointers,
  so a `Packet` here is its ten-byte memory image; fields are accessors at fixed offsets.
  Two-byte fields are stored low byte first, as on the little-endian machines the tool
  supports (`setparams` only exists for Windows).
* An access through a variable index that leaves the ten bytes of the object has no defined
  behaviour in C; the functions that can perform one return `Option`, with `none` for it.
* The serial line, the console and the process arguments are explicit: a `World` holds the
  bytes the line will still deliver, how the line answers a write, and the trace of every
  system call and message so far.
-/

namespace Hzaddr

/-! ## Constants -/

def HEADER_LENGTH : Nat := 5
def MIN_PKT_LENGTH : Nat := HEADER_LENGTH + 2
def START_BYTE : Nat := 0x55
def BROADCAST_ADDR : Nat := 0
def FUNCTION_READ : Nat := 1
def FUNCTION_WRITE : Nat := 2
def FUNCTION_CONTROL : Nat := 3
def FUNCTION_REQUEST : Nat := 4

/-! ## Bytes and the packet buffer -/

/-- An `unsigned char`. -/
abbrev Byte := Fin 256

/-- The conversion `(unsigned char)n`: keep the low eight bits. -/
def toByte (n : Nat) : Byte := ⟨n % 256, Nat.mod_lt n (by decide)⟩

/-- The ten bytes of memory of a `struct Packet` (`start`, `device_addr` (2), `function`,
`data_addr`, `data[5]`, packed). -/
structure Packet where
  mem : List Byte
  size : mem.length = 10
  deriving DecidableEq

namespace Packet

/-- The byte at offset `i` of the buffer. -/
def peek (p : Packet) (i : Nat) : Byte := p.mem.getD i 0

/-- Store one byte at offset `i` of the buffer. -/
def poke (p : Packet) (i : Nat) (v : Byte) : Packet :=
  ⟨p.mem.set i v, by rw [List.length_set]; exact p.size⟩

/-- Store the bytes `bs` at offsets `off, off+1, ...` of the buffer. -/
def store (p : Packet) (off : Nat) : List Byte → Packet
  | [] => p
  | b :: bs => store (p.poke off b) (off + 1) bs

/-- The 16-bit value held low byte first at offsets `i`, `i+1`. -/
def peek16 (p : Packet) (i : Nat) : Nat := (p.peek i).val + 256 * (p.peek (i + 1)).val

/-- Store a 16-bit value low byte first at offsets `i`, `i+1`. -/
def poke16 (p : Packet) (i : Nat) (v : Nat) : Packet :=
  (p.poke i (toByte v)).poke (i + 1) (toByte (v / 256))

/-- Field `start`, offset 0. -/
def start (p : Packet) : Nat := (p.peek 0).val
/-- Field `device_addr`, offsets 1 and 2. -/
def device_addr (p : Packet) : Nat := p.peek16 1
/-- Field `function`, offset 3. -/
def function (p : Packet) : Nat := (p.peek 3).val
/-- Field `data_addr`, offset 4. -/
def data_addr (p : Packet) : Nat := (p.peek 4).val
/-- Element `data[i]`, offset `HEADER_LENGTH + i`. -/
def data (p : Packet) (i : Nat) : Nat := (p.peek (HEADER_LENGTH + i)).val

/-- Assignment `buffer.start = v`. -/
def set_start (p : Packet) (v : Nat) : Packet := p.poke 0 (toByte v)
/-- Assignment `buffer.device_addr = v`. -/
def set_device_addr (p : Packet) (v : Nat) : Packet := p.poke16 1 v
/-- Assignment `buffer.function = v`. -/
def set_function (p : Packet) (v : Nat) : Packet := p.poke 3 (toByte v)
/-- Assignment `buffer.data_addr = v`. -/
def set_data_addr (p : Packet) (v : Nat) : Packet := p.poke 4 (toByte v)
/-- Assignment `buffer.data[i] = v`. -/
def set_data (p : Packet) (i : Nat) (v : Nat) : Packet := p.poke (HEADER_LENGTH + i) (toByte v)

/-- A buffer of ten zero bytes. -/
def zero : Packet := ⟨List.replicate 10 0, rfl⟩

end Packet

/-! ## The checksum (`crc16`) -/

/-- One round of the inner loop of `crc16`:
`mask = ((crc & 0x1) != 0) ? 0xA001 : 0x0000; crc = ((crc >> 1) & 0x7FFF) ^ mask;`. -/
def crc16_round (crc : Nat) : Nat :=
  let mask := if crc &&& 0x1 ≠ 0 then 0xA001 else 0x0000
  (((crc >>> 1) &&& 0x7FFF) ^^^ mask) % 65536

/-- One pass of the outer loop of `crc16`: `crc = crc ^ buffer[i]`, then eight rounds. -/
def crc16_step (crc : Nat) (b : Byte) : Nat :=
  crc16_round^[8] ((crc ^^^ b.val) % 65536)

/-- The function `crc16(buffer, length)`: start from `0xFFFF` and process
`buffer[0], ..., buffer[length-1]` in order. -/
def crc16 (buffer : List Byte) (length : Nat) : Nat :=
  (List.range length).foldl (fun crc i => crc16_step crc (buffer.getD i 0)) 0xFFFF

/-! ## The world outside the program -/

/-- Every message the program prints (the `printf` and `fprintf` calls of the source), with
the values it prints. -/
inductive Msg
  /-- `Usage: %s <serial_port> [new_address]`. -/
  | usage
  /-- `Invalid new address %s supplied; valid values are 1...65535`. -/
  | invalidAddress
  /-- `Failed to open %s: %s`. -/
  | openFailed
  /-- `Failed to set serial port parameters: %08X`. -/
  | paramsFailed
  /-- `Waiting for IDENT packet on %s...`. -/
  | waiting
  /-- `Error reading from serial port: %s`. -/
  | readError
  /-- `Malformed packet, only %d bytes read, %d expected`. -/
  | malformed (r : Int) (length : Nat)
  /-- `Error sending packet: %s`. -/
  | sendError
  /-- `Error sending packet, only %d sent, %d expected`. -/
  | sendShort (r : Int) (pkt_length : Nat)
  /-- `Unexpected function %d, bus is not idle!`. -/
  | unexpectedFunction (function : Nat)
  /-- `Packet CRC mismatch: received ... calculated ...`. -/
  | crcMismatch (rx_crc calc_crc : Nat)
  /-- `Found device address 0x%04X (%u)`. -/
  | found (device_addr : Nat)
  /-- `Setting new address 0f 0x%04X (%u)...`. -/
  | setting (new_addr : Nat)
  /-- `Packet sent, waiting for confirmation...`. -/
  | sent
  /-- `Unexpected FUNCTION %d in reply`. -/
  | unexpectedReply (function : Nat)
  /-- `Address is not accepted by the device; keeping 0x%04X (%u)`. -/
  | notAccepted (device_addr : Nat)
  /-- `All done, response is correct`. -/
  | allDone
  deriving DecidableEq, Repr

/-- What the program does to the outside: system calls on the port and printed messages. -/
inductive Event
  /-- A call `read(fd, _, length)` that returned `r`. -/
  | read (length : Nat) (r : Int)
  /-- A call `write(fd, bytes, bytes.length)` that returned `r`. -/
  | write (bytes : List Byte) (r : Int)
  /-- A message printed. -/
  | print (m : Msg)
  /-- The call `close(fd)`. -/
  | close
  deriving DecidableEq, Repr

/-- The environment of one run. -/
structure World where
  /-- Whether `open` on the port succeeds. -/
  canOpen : Bool
  /-- Whether `setparams` succeeds. -/
  canSetParams : Bool
  /-- The bytes the serial line will still deliver, in order. -/
  rx : List Byte
  /-- What `read` does once the line cannot supply all the bytes asked for:
  `true` makes it fail (`-1`), `false` makes it return the bytes there are. -/
  rxErr : Bool
  /-- How the line answers `write`: `none` is an error (`-1`), `some k` takes at most `k`
  bytes. -/
  txRoom : Option Nat
  /-- Everything done so far, oldest first. -/
  trace : List Event
  deriving DecidableEq, Repr

/-- Append an event to the trace. -/
def World.log (w : World) (e : Event) : World := { w with trace := w.trace ++ [e] }

/-- Print a message. -/
def World.print (w : World) (m : Msg) : World := w.log (.print m)

/-- The system call `read(fd, buffer + off, length)`: the return value, the world after it
and the buffer after it. -/
def read (w : World) (buffer : Packet) (off length : Nat) : Int × World × Packet :=
  if length ≤ w.rx.length then
    (length, { w with rx := w.rx.drop length }.log (.read length length),
      buffer.store off (w.rx.take length))
  else if w.rxErr then
    (-1, w.log (.read length (-1)), buffer)
  else
    (w.rx.length, { w with rx := [] }.log (.read length w.rx.length), buffer.store off w.rx)

/-- The value a call `write(fd, _, length)` returns on this line: `-1` for an error,
otherwise the number of bytes taken. -/
def writeReturn (w : World) (length : Nat) : Int :=
  match w.txRoom with
  | none => -1
  | some k => min k length

/-- The system call `write(fd, buffer, length)`: `none` when `length` exceeds the ten bytes
of the buffer, otherwise the return value and the world after it. -/
def write (w : World) (buffer : Packet) (length : Nat) : Option (Int × World) :=
  if length ≤ 10 then
    some (writeReturn w length, w.log (.write (buffer.mem.take length) (writeReturn w length)))
  else none

/-! ## The packet codec -/

/-- The function `wrappedRead(fd, buffer + off, length)`. -/
def wrappedRead (w : World) (buffer : Packet) (off length : Nat) : Int × World × Packet :=
  let (r, w, buffer) := read w buffer off length
  if r = -1 then
    (-1, w.print .readError, buffer)
  else if r < length then
    (-1, w.print (.malformed r length), buffer)
  else
    (0, w, buffer)

/-- The function `set_src(buffer, data_length)`: compute the checksum of the first
`HEADER_LENGTH + data_length` bytes and store it in `data[data_length]` (low byte) and
`data[data_length + 1]` (high byte). `data` has five elements, so the result is `none`
unless `data_length + 1 < 5`. -/
def set_src (buffer : Packet) (data_length : Nat) : Option Packet :=
  let crc := crc16 buffer.mem (HEADER_LENGTH + data_length)
  if data_length + 1 < 5 then
    some ((buffer.set_data data_length crc).set_data (data_length + 1) (crc >>> 8))
  else none

/-- The function `sendPkt(fd, buffer, payload_length)`. -/
def sendPkt (w : World) (buffer : Packet) (payload_length : Nat) :
    Option (Int × World × Packet) :=
  let pkt_length := MIN_PKT_LENGTH + payload_length
  match set_src buffer payload_length with
  | none => none
  | some buffer =>
    match write w buffer pkt_length with
    | none => none
    | some (r, w) =>
      if r = -1 then
        some (-1, w.print .sendError, buffer)
      else if r < pkt_length then
        some (-1, w.print (.sendShort r pkt_length), buffer)
      else
        some (0, w, buffer)

/-- The end of `receivePkt`, once the frame is in the buffer: recompute the checksum over
`HEADER_LENGTH + data_len` bytes and compare it with the two bytes at `data[data_len]`. -/
def receivePkt_check (w : World) (buffer : Packet) (data_len : Nat) : Int × World × Packet :=
  let calc_crc := crc16 buffer.mem (HEADER_LENGTH + data_len)
  let rx_crc := buffer.peek16 (HEADER_LENGTH + data_len)
  if calc_crc ≠ rx_crc then
    (-1, w.print (.crcMismatch rx_crc calc_crc), buffer)
  else
    (0, w, buffer)

/-- The function `receivePkt(fd, buffer)`. -/
def receivePkt (w : World) (buffer : Packet) : Int × World × Packet :=
  let (r, w, buffer) := wrappedRead w buffer 0 MIN_PKT_LENGTH
  if r ≠ 0 then
    (-1, w, buffer)
  else if buffer.function = FUNCTION_WRITE then
    -- data_len = 1
    let (r, w, buffer) := wrappedRead w buffer MIN_PKT_LENGTH 1
    if r ≠ 0 then
      (-1, w, buffer)
    else
      receivePkt_check w buffer 1
  else if buffer.function ≠ FUNCTION_REQUEST then
    (-1, w.print (.unexpectedFunction buffer.function), buffer)
  else
    -- data_len = 0
    receivePkt_check w buffer 0

/-! ## The handshake (`main`) -/

/-- The part of `main` after a successful identification, when `new_addr` is not zero:
build the write-address command in the buffer, send it, wait for the confirmation and
report on it. -/
def setAddress (w : World) (buffer : Packet) (new_addr : Nat) : Option World :=
  let w := w.print (.setting new_addr)
  let buffer := buffer.set_start START_BYTE
  let buffer := buffer.set_device_addr BROADCAST_ADDR
  let buffer := buffer.set_function FUNCTION_WRITE
  let buffer := buffer.set_data_addr 0
  let buffer := buffer.set_data 0 2
  let buffer := buffer.set_data 1 new_addr
  let buffer := buffer.set_data 2 (new_addr >>> 8)
  match sendPkt w buffer 3 with
  | none => none
  | some (r, w, buffer) =>
    if r = 0 then
      let w := w.print .sent
      let (r, w, buffer) := receivePkt w buffer
      if r ≠ -1 then
        if buffer.function ≠ FUNCTION_WRITE then
          some (w.print (.unexpectedReply buffer.function))
        else if buffer.device_addr ≠ new_addr then
          some (w.print (.notAccepted buffer.device_addr))
        else
          some (w.print .allDone)
      else some w
    else some w

/-- The function `main`. `argc` is the argument count, `addr_arg` the value `strtoul` gives
for `argv[2]` (used only when `argc > 2`), `buffer` the contents the local variable `buffer`
happens to have at entry. `setparams` is the one for Windows, which returns `-1` on failure.
The result is the exit status and the world at exit. -/
def main (argc : Nat) (addr_arg : Nat) (w : World) (buffer : Packet) : Option (Nat × World) :=
  if argc < 2 then
    some (255, w.print .usage)
  else
    let new_addr := if argc > 2 then addr_arg else 0
    if argc > 2 ∧ (new_addr > 0xFFFF ∨ new_addr = 0) then
      some (255, w.print .invalidAddress)
    else if ¬ w.canOpen then
      some (255, w.print .openFailed)
    else if ¬ w.canSetParams then
      some (255, (w.print .paramsFailed).log .close)
    else
      let w := w.print .waiting
      let (r, w, buffer) := receivePkt w buffer
      if r = -1 then
        some (255, w.log .close)
      else
        let w := w.print (.found buffer.device_addr)
        if new_addr ≠ 0 then
          match setAddress w buffer new_addr with
          | none => none
          | some w => some (0, w.log .close)
        else
          some (0, w.log .close)

/-! ## Vocabulary of the statements -/

/-- A frame as a caller describes it before encoding: the fields of the header and the
payload bytes. -/
structure Frame where
  device_addr : Nat
  function : Byte
  data_addr : Byte
  payload : List Byte
  deriving DecidableEq, Repr

/-- Fill a buffer from a frame field by field, the way `main` fills it for its write
command: `start`, `device_addr`, `function`, `data_addr`, then `data[0], data[1], ...`. -/
def Frame.fill (f : Frame) (buffer : Packet) : Packet :=
  let buffer := buffer.set_start START_BYTE
  let buffer := buffer.set_device_addr f.device_addr
  let buffer := buffer.set_function f.function.val
  let buffer := buffer.set_data_addr f.data_addr.val
  buffer.store HEADER_LENGTH f.payload

/-- A line that takes every byte written to it, delivers nothing, and has an empty trace. -/
def World.sink : World :=
  { canOpen := true, canSetParams := true, rx := [], rxErr := false, txRoom := some 10,
    trace := [] }

/-- The bytes `sendPkt(fd, buffer, payload_length)` hands to `write`, read off the trace of a
call on `World.sink`; `none` when the call has no defined behaviour. -/
def wireBytes (buffer : Packet) (payload_length : Nat) : Option (List Byte) :=
  match sendPkt World.sink buffer payload_length with
  | some (_, w, _) =>
    match w.trace with
    | [.write bytes _] => some bytes
    | _ => none
  | none => none

/-- The bytes on the wire for a frame: fill a buffer, then `sendPkt` with the payload
length. -/
def encode (f : Frame) (scratch : Packet) : Option (List Byte) :=
  wireBytes (f.fill scratch) f.payload.length

/-- The round-trip property of one frame: it encodes, and `receivePkt` on a line that
delivers the encoding followed by `tail` returns `0` with the frame's `device_addr`,
`function` and `data_addr` in the buffer. -/
def RoundTrips (f : Frame) (tail : List Byte) (w : World) (scratch buffer : Packet) : Prop :=
  match encode f scratch with
  | none => False
  | some bytes =>
    (receivePkt { w with rx := bytes ++ tail } buffer).1 = 0 ∧
    (receivePkt { w with rx := bytes ++ tail } buffer).2.2.device_addr = f.device_addr ∧
    (receivePkt { w with rx := bytes ++ tail } buffer).2.2.function = f.function.val ∧
    (receivePkt { w with rx := bytes ++ tail } buffer).2.2.data_addr = f.data_addr.val

instance (f : Frame) (tail : List Byte) (w : World) (scratch buffer : Packet) :
    Decidable (RoundTrips f tail w scratch buffer) := by
  unfold RoundTrips
  split <;> infer_instance

/-- The byte at position `i` of a stream, as a number (`0` past its end). -/
def byteAt (l : List Byte) (i : Nat) : Nat := (l.getD i 0).val

/-- The 16-bit value held low byte first at positions `i`, `i+1` of a stream. -/
def le16 (l : List Byte) (i : Nat) : Nat := byteAt l i + 256 * byteAt l (i + 1)

/-- Whether an event is a call of `write`. -/
def Event.isWrite : Event → Bool
  | .write _ _ => true
  | _ => false

/-- Whether an event is a call of `read`. -/
def Event.isRead : Event → Bool
  | .read _ _ => true
  | _ => false

/-- The calls of `write` in a trace. -/
def writes (tr : List Event) : List Event := tr.filter Event.isWrite

/-- The calls of `read` in a trace. -/
def reads (tr : List Event) : List Event := tr.filter Event.isRead

/-- What follows the first call of `write` in a trace. -/
def afterWrite (tr : List Event) : List Event := (tr.dropWhile (fun e => !e.isWrite)).drop 1

/-- The command line and the port let the run reach the wait for the identification frame:
there is a port argument, a new address, if given, is in `1..65535`, and the port opens and
takes its parameters. -/
def Started (argc addr_arg : Nat) (w : World) : Prop :=
  2 ≤ argc ∧ (2 < argc → 1 ≤ addr_arg ∧ addr_arg ≤ 0xFFFF) ∧
    w.canOpen = true ∧ w.canSetParams = true

/-- The exit status of a run (`none` when the run has no defined behaviour). -/
def exitStatus (argc addr_arg : Nat) (w : World) (buffer : Packet) : Option Nat :=
  (main argc addr_arg w buffer).map Prod.fst

/-- The events of a run, oldest first: the trace at exit without what was there at entry. -/
def events (argc addr_arg : Nat) (w : World) (buffer : Packet) : List Event :=
  match main argc addr_arg w buffer with
  | some (_, w') => w'.trace.drop w.trace.length
  | none => []

/-- The events of one call of `receivePkt`. -/
def receiveEvents (w : World) (buffer : Packet) : List Event :=
  (receivePkt w buffer).2.1.trace.drop w.trace.length

/-- The write-address command for target address `t` as the specification lays it out:
start marker, broadcast address `0`, function `WRITE`, `data_addr` 0, the length byte `2`,
the address low byte then high byte, and the checksum of these eight bytes, low byte first. -/
def writeCommand (t : Nat) : List Byte :=
  let body : List Byte := [0x55, 0x00, 0x00, 0x02, 0x00, 0x02, toByte (t % 256), toByte (t / 256)]
  body ++ [toByte (crc16 body 8 % 256), toByte (crc16 body 8 / 256)]

/-- The messages printed in a trace, oldest first. -/
def messages : List Event → List Msg
  | [] => []
  | .print m :: tr => m :: messages tr
  | _ :: tr => messages tr

/-- The first decode of a run, the wait for the identification frame: the call of
`receivePkt` that `main` makes right after its `Waiting for IDENT packet` message. -/
def awaitIdent (w : World) (buffer : Packet) : Int × World × Packet :=
  receivePkt (w.print .waiting) buffer

instance (argc addr_arg : Nat) (w : World) : Decidable (Started argc addr_arg w) := by
  unfold Started
  infer_instance

/-- The layout of an encoded frame with `n` payload bytes: the result of `sendPkt` on the
buffer is defined, its one call of `write` is handed a frame of `5 + n + 2` bytes that lies
at the start of the buffer, the first `5 + n` bytes are those of the buffer before the call
(header and payload, unchanged), and the last two are `crc16` of those first `5 + n` bytes,
low byte then high byte. -/
def EncodeLayout (w : World) (buffer : Packet) (n : Nat) : Prop :=
  match sendPkt w buffer n with
  | none => False
  | some (_, w', buffer') =>
    writes (w'.trace.drop w.trace.length) =
      [.write (buffer'.mem.take (5 + n + 2)) (writeReturn w (5 + n + 2))] ∧
    (buffer'.mem.take (5 + n + 2)).length = 5 + n + 2 ∧
    (buffer'.mem.take (5 + n + 2)).take (5 + n) = buffer.mem.take (5 + n) ∧
    ((buffer'.mem.take (5 + n + 2)).drop (5 + n)).map Fin.val =
      [crc16 (buffer'.mem.take (5 + n + 2)) (5 + n) % 256,
        crc16 (buffer'.mem.take (5 + n + 2)) (5 + n) / 256]

instance (w : World) (buffer : Packet) (n : Nat) : Decidable (EncodeLayout w buffer n) := by
  unfold EncodeLayout
  split <;> infer_instance

/-- The value a round of `crc16` came from: bit 15 of the result tells whether the polynomial
was added. -/
def crc16_unround (y : Nat) : Nat :=
  if 32768 ≤ y then 2 * (y ^^^ 0xA001) + 1 else 2 * y

/-- The byte `b` with bit `j` (0 the lowest, taken modulo 8) flipped. -/
def flipByte (b : Byte) (j : Nat) : Byte := toByte (b.val ^^^ 2 ^ (j % 8))

/-- The byte sequence `l` with bit `k` flipped: bit `k % 8` of the byte at position `k / 8`.
A position past the end leaves the sequence as it is. -/
def flipBit (l : List Byte) (k : Nat) : List Byte :=
  l.set (k / 8) (flipByte (l.getD (k / 8) 0) k)

/-- One round of the reference CRC-16 of the specification: shift right by 1 and XOR with
`0xA001` if the low bit of the accumulator is 1, else shift right by 1. -/
def crc16_ref_round (acc : Nat) : Nat :=
  if acc % 2 = 1 then (acc >>> 1) ^^^ 0xA001 else acc >>> 1

/-- The reference CRC-16 of the specification over one byte: XOR the byte into the low 8
bits of the accumulator, then eight rounds. -/
def crc16_ref_byte (acc : Nat) (b : Byte) : Nat :=
  crc16_ref_round^[8] (acc ^^^ b.val)

/-- The reference CRC-16 of the specification: the accumulator starts at `0xFFFF` and takes
the bytes in order. -/
def crc16_ref (bytes : List Byte) : Nat :=
  bytes.foldl crc16_ref_byte 0xFFFF

/-- Whether a message is the CRC mismatch. -/
def Msg.isCrcMismatch : Msg → Bool
  | .crcMismatch _ _ => true
  | _ => false

/-- Whether a message is the unexpected function. -/
def Msg.isUnexpectedFunction : Msg → Bool
  | .unexpectedFunction _ => true
  | _ => false

/-- The error a call of `receivePkt` reports: the last message it prints. -/
def failure (w : World) (buffer : Packet) : Option Msg :=
  (messages (receiveEvents w buffer)).getLast?

/-- The number of bytes a call of `receivePkt` takes from the line. -/
def consumed (w : World) (buffer : Packet) : Nat :=
  w.rx.length - (receivePkt w buffer).2.1.rx.length

/-- The world `w` with bit `k` of the bytes on the line flipped. -/
def World.flip (w : World) (k : Nat) : World := { w with rx := flipBit w.rx k }

/-- The claim that flipping bit `k` of the line makes `receivePkt` fail with the CRC
mismatch. -/
def FlipGivesCrcMismatch (w : World) (buffer : Packet) (k : Nat) : Prop :=
  (receivePkt (w.flip k) buffer).1 = -1 ∧
    (failure (w.flip k) buffer).map Msg.isCrcMismatch = some true

instance (w : World) (buffer : Packet) (k : Nat) :
    Decidable (FlipGivesCrcMismatch w buffer k) := by
  unfold FlipGivesCrcMismatch
  infer_instance

/-- The ASCII bytes of `123456789`, the usual check input of a CRC. -/
def checkDigits : List Byte := [0x31, 0x32, 0x33, 0x34, 0x35, 0x36, 0x37, 0x38, 0x39]

/-! ## Sample lines and frames -/

/-- A port that opens, takes its parameters and every byte written, and delivers the bytes
`rx` and then nothing. -/
def World.line (rx : List Byte) : World :=
  { canOpen := true, canSetParams := true, rx := rx, rxErr := false, txRoom := some 10,
    trace := [] }

/-- The identification (`REQUEST`) frame of the device at address `0x1234`. -/
def identFrame : List Byte := [0x55, 0x34, 0x12, 4, 0, 132, 249]

/-- A `WRITE` confirmation from the device at address `0x2000`. -/
def confirmFrame2000 : List Byte := [0x55, 0x00, 0x20, 2, 0, 2, 39, 223]

/-- A `WRITE` confirmation from the device at address `0x1234`. -/
def confirmFrame1234 : List Byte := [0x55, 0x34, 0x12, 2, 0, 2, 152, 163]

/-- A `REQUEST` frame from the device at address `0x2000`. -/
def requestFrame2000 : List Byte := [0x55, 0x00, 0x20, 4, 0, 43, 6]

/-- A `CONTROL` frame with a correct checksum. -/
def controlFrame : List Byte := [0x55, 0x34, 0x12, 3, 0, 134, 201]

/-! ## Basic facts -/

theorem toByte_val (n : Nat) : (toByte n).val = n % 256 := rfl

theorem toByte_of_val (b : Byte) : toByte b.val = b := by
  apply Fin.ext
  simp [toByte, Nat.mod_eq_of_lt b.isLt]

theorem Packet.exists_mem (p : Packet) :
    ∃ a0 a1 a2 a3 a4 a5 a6 a7 a8 a9, p.mem = [a0, a1, a2, a3, a4, a5, a6, a7, a8, a9] := by
  rcases p with ⟨m, hm⟩
  rcases m with _ | ⟨a0, _ | ⟨a1, _ | ⟨a2, _ | ⟨a3, _ | ⟨a4, _ | ⟨a5, _ | ⟨a6, _ | ⟨a7,
    _ | ⟨a8, _ | ⟨a9, _ | ⟨a10, m⟩⟩⟩⟩⟩⟩⟩⟩⟩⟩⟩ <;> simp at hm
  exact ⟨a0, a1, a2, a3, a4, a5, a6, a7, a8, a9, rfl⟩

theorem Packet.ext_mem {p q : Packet} (h : p.mem = q.mem) : p = q := by
  cases p; cases q; simp_all

theorem exists_cons7 (l : List Byte) (h : 7 ≤ l.length) :
    ∃ b0 b1 b2 b3 b4 b5 b6 rest, l = b0 :: b1 :: b2 :: b3 :: b4 :: b5 :: b6 :: rest := by
  rcases l with _ | ⟨b0, _ | ⟨b1, _ | ⟨b2, _ | ⟨b3, _ | ⟨b4, _ | ⟨b5, _ | ⟨b6, rest⟩⟩⟩⟩⟩⟩⟩ <;>
    simp at h
  exact ⟨b0, b1, b2, b3, b4, b5, b6, rest, rfl⟩

/-! ## The checksum -/

theorem crc16_round_lt (crc : Nat) : crc16_round crc < 65536 := by
  unfold crc16_round
  exact Nat.mod_lt _ (by decide)

theorem crc16_step_lt (crc : Nat) (b : Byte) : crc16_step crc b < 65536 := by
  unfold crc16_step
  rw [show (8 : Nat) = 7 + 1 from rfl, Function.iterate_succ_apply']
  exact crc16_round_lt _

theorem crc16_succ (buffer : List Byte) (n : Nat) :
    crc16 buffer (n + 1) = crc16_step (crc16 buffer n) (buffer.getD n 0) := by
  simp [crc16, List.range_succ]

theorem crc16_zero (buffer : List Byte) : crc16 buffer 0 = 0xFFFF := rfl

theorem crc16_lt (buffer : List Byte) (n : Nat) : crc16 buffer n < 65536 := by
  cases n with
  | zero => simp [crc16_zero]
  | succ n => rw [crc16_succ]; exact crc16_step_lt _ _

/-- The checksum of `length` bytes only looks at the first `length` bytes. -/
theorem crc16_congr (l l' : List Byte) (n : Nat)
    (h : ∀ i, i < n → l.getD i 0 = l'.getD i 0) : crc16 l n = crc16 l' n := by
  induction n with
  | zero => simp [crc16_zero]
  | succ n ih =>
    rw [crc16_succ, crc16_succ, ih (fun i hi => h i (Nat.lt_succ_of_lt hi)), h n (Nat.lt_succ_self n)]

/-- Splitting a 16-bit value into its two bytes and reading them back. -/
theorem le_bytes (c : Nat) (h : c < 65536) : c % 256 + 256 * ((c >>> 8) % 256) = c := by
  have h8 : c >>> 8 = c / 256 := by rw [Nat.shiftRight_eq_div_pow]
  rw [h8]
  omega

/-! ## `receivePkt`, case by case -/

/-- Fewer than seven bytes on the line: the first read fails. -/
theorem receivePkt_short (w : World) (buffer : Packet) (h : w.rx.length < 7) :
    receivePkt w buffer =
      if w.rxErr then (-1, (w.log (.read 7 (-1))).print .readError, buffer)
      else (-1, ({ w with rx := [] }.log (.read 7 w.rx.length)).print
        (.malformed w.rx.length 7), buffer.store 0 w.rx) := by
  have h1 : ¬ 7 ≤ w.rx.length := by omega
  have h2 : ((w.rx.length : Nat) : Int) ≠ -1 := by omega
  have h3 : ((w.rx.length : Nat) : Int) < 7 := by omega
  cases hE : w.rxErr <;>
    simp [receivePkt, wrappedRead, read, MIN_PKT_LENGTH, HEADER_LENGTH, h1, h2, h3, hE]

/-- Seven bytes on the line with an unexpected function byte. -/
theorem receivePkt_other (w : World) (buffer : Packet) (b0 b1 b2 b3 b4 b5 b6 : Byte)
    (rest : List Byte) (hrx : w.rx = b0 :: b1 :: b2 :: b3 :: b4 :: b5 :: b6 :: rest)
    (h2 : b3.val ≠ 2) (h4 : b3.val ≠ 4) :
    receivePkt w buffer =
      (-1, ({ w with rx := rest }.log (.read 7 7)).print (.unexpectedFunction b3.val),
        buffer.store 0 [b0, b1, b2, b3, b4, b5, b6]) := by
  obtain ⟨a0, a1, a2, a3, a4, a5, a6, a7, a8, a9, hm⟩ := buffer.exists_mem
  simp [receivePkt, wrappedRead, read, hrx, MIN_PKT_LENGTH, HEADER_LENGTH, Packet.function,
    Packet.peek, Packet.store, Packet.poke, hm, h2, h4, FUNCTION_WRITE, FUNCTION_REQUEST]

/-- Seven bytes on the line with function `REQUEST`. -/
theorem receivePkt_request (w : World) (buffer : Packet) (b0 b1 b2 b3 b4 b5 b6 : Byte)
    (rest : List Byte) (hrx : w.rx = b0 :: b1 :: b2 :: b3 :: b4 :: b5 :: b6 :: rest)
    (h3 : b3.val = 4) :
    receivePkt w buffer =
      receivePkt_check ({ w with rx := rest }.log (.read 7 7))
        (buffer.store 0 [b0, b1, b2, b3, b4, b5, b6]) 0 := by
  obtain ⟨a0, a1, a2, a3, a4, a5, a6, a7, a8, a9, hm⟩ := buffer.exists_mem
  simp [receivePkt, wrappedRead, read, hrx, MIN_PKT_LENGTH, HEADER_LENGTH, Packet.function,
    Packet.peek, Packet.store, Packet.poke, hm, h3, FUNCTION_WRITE, FUNCTION_REQUEST]

/-- Exactly seven bytes on the line with function `WRITE`: the second read fails. -/
theorem receivePkt_write_short (w : World) (buffer : Packet) (b0 b1 b2 b3 b4 b5 b6 : Byte)
    (hrx : w.rx = [b0, b1, b2, b3, b4, b5, b6]) (h3 : b3.val = 2) :
    receivePkt w buffer =
      if w.rxErr then
        (-1, (({ w with rx := [] }.log (.read 7 7)).log (.read 1 (-1))).print .readError,
          buffer.store 0 [b0, b1, b2, b3, b4, b5, b6])
      else
        (-1, (({ w with rx := [] }.log (.read 7 7)).log (.read 1 0)).print (.malformed 0 1),
          buffer.store 0 [b0, b1, b2, b3, b4, b5, b6]) := by
  obtain ⟨a0, a1, a2, a3, a4, a5, a6, a7, a8, a9, hm⟩ := buffer.exists_mem
  cases hE : w.rxErr <;>
  simp [receivePkt, wrappedRead, read, hrx, MIN_PKT_LENGTH, HEADER_LENGTH, Packet.function,
    Packet.peek, Packet.store, Packet.poke, hm, h3, FUNCTION_WRITE, FUNCTION_REQUEST, World.log, hE]

/-- Eight bytes on the line with function `WRITE`. -/
theorem receivePkt_write (w : World) (buffer : Packet) (b0 b1 b2 b3 b4 b5 b6 b7 : Byte)
    (rest : List Byte) (hrx : w.rx = b0 :: b1 :: b2 :: b3 :: b4 :: b5 :: b6 :: b7 :: rest)
    (h3 : b3.val = 2) :
    receivePkt w buffer =
      receivePkt_check (({ w with rx := rest }.log (.read 7 7)).log (.read 1 1))
        (buffer.store 0 [b0, b1, b2, b3, b4, b5, b6, b7]) 1 := by
  obtain ⟨a0, a1, a2, a3, a4, a5, a6, a7, a8, a9, hm⟩ := buffer.exists_mem
  simp [receivePkt, wrappedRead, read, hrx, MIN_PKT_LENGTH, HEADER_LENGTH, Packet.function,
    Packet.peek, Packet.store, Packet.poke, hm, h3, FUNCTION_WRITE, FUNCTION_REQUEST, World.log]

/-- The buffer after a seven-byte read holds the seven bytes. -/
theorem store7_mem (buffer : Packet) (b0 b1 b2 b3 b4 b5 b6 : Byte) :
    ∃ a7 a8 a9, (buffer.store 0 [b0, b1, b2, b3, b4, b5, b6]).mem =
      [b0, b1, b2, b3, b4, b5, b6, a7, a8, a9] := by
  obtain ⟨a0, a1, a2, a3, a4, a5, a6, a7, a8, a9, hm⟩ := buffer.exists_mem
  exact ⟨a7, a8, a9, by simp [Packet.store, Packet.poke, hm]⟩

/-- The buffer after a seven-byte and a one-byte read holds the eight bytes. -/
theorem store8_mem (buffer : Packet) (b0 b1 b2 b3 b4 b5 b6 b7 : Byte) :
    ∃ a8 a9, (buffer.store 0 [b0, b1, b2, b3, b4, b5, b6, b7]).mem =
      [b0, b1, b2, b3, b4, b5, b6, b7, a8, a9] := by
  obtain ⟨a0, a1, a2, a3, a4, a5, a6, a7, a8, a9, hm⟩ := buffer.exists_mem
  exact ⟨a8, a9, by simp [Packet.store, Packet.poke, hm]⟩

theorem crc16_prefix5 (b0 b1 b2 b3 b4 : Byte) (t t' : List Byte) :
    crc16 (b0 :: b1 :: b2 :: b3 :: b4 :: t) 5 = crc16 (b0 :: b1 :: b2 :: b3 :: b4 :: t') 5 := by
  apply crc16_congr
  intro i hi
  interval_cases i <;> simp

theorem crc16_prefix6 (b0 b1 b2 b3 b4 b5 : Byte) (t t' : List Byte) :
    crc16 (b0 :: b1 :: b2 :: b3 :: b4 :: b5 :: t) 6 =
      crc16 (b0 :: b1 :: b2 :: b3 :: b4 :: b5 :: t') 6 := by
  apply crc16_congr
  intro i hi
  interval_cases i <;> simp

/-- The result of `receivePkt` on a `REQUEST` frame, in terms of the stream. -/
theorem receivePkt_request_eq (w : World) (buffer : Packet) (b0 b1 b2 b3 b4 b5 b6 : Byte)
    (rest : List Byte) (hrx : w.rx = b0 :: b1 :: b2 :: b3 :: b4 :: b5 :: b6 :: rest)
    (h3 : b3.val = 4) :
    receivePkt w buffer =
      if crc16 w.rx 5 ≠ le16 w.rx 5 then
        (-1, ({ w with rx := rest }.log (.read 7 7)).print
          (.crcMismatch (le16 w.rx 5) (crc16 w.rx 5)),
          buffer.store 0 [b0, b1, b2, b3, b4, b5, b6])
      else
        (0, { w with rx := rest }.log (.read 7 7), buffer.store 0 [b0, b1, b2, b3, b4, b5, b6]) := by
  rw [receivePkt_request w buffer b0 b1 b2 b3 b4 b5 b6 rest hrx h3]
  obtain ⟨a7, a8, a9, hm⟩ := store7_mem buffer b0 b1 b2 b3 b4 b5 b6
  have hc : crc16 (buffer.store 0 [b0, b1, b2, b3, b4, b5, b6]).mem 5 = crc16 w.rx 5 := by
    rw [hm, hrx]; exact crc16_prefix5 _ _ _ _ _ _ _
  have hl : (buffer.store 0 [b0, b1, b2, b3, b4, b5, b6]).peek16 5 = le16 w.rx 5 := by
    simp [Packet.peek16, Packet.peek, hm, hrx, le16, byteAt]
  simp only [receivePkt_check, HEADER_LENGTH, Nat.add_zero, hc, hl]

/-- The result of `receivePkt` on a `WRITE` frame, in terms of the stream. -/
theorem receivePkt_write_eq (w : World) (buffer : Packet) (b0 b1 b2 b3 b4 b5 b6 b7 : Byte)
    (rest : List Byte) (hrx : w.rx = b0 :: b1 :: b2 :: b3 :: b4 :: b5 :: b6 :: b7 :: rest)
    (h3 : b3.val = 2) :
    receivePkt w buffer =
      if crc16 w.rx 6 ≠ le16 w.rx 6 then
        (-1, (({ w with rx := rest }.log (.read 7 7)).log (.read 1 1)).print
          (.crcMismatch (le16 w.rx 6) (crc16 w.rx 6)),
          buffer.store 0 [b0, b1, b2, b3, b4, b5, b6, b7])
      else
        (0, ({ w with rx := rest }.log (.read 7 7)).log (.read 1 1),
          buffer.store 0 [b0, b1, b2, b3, b4, b5, b6, b7]) := by
  rw [receivePkt_write w buffer b0 b1 b2 b3 b4 b5 b6 b7 rest hrx h3]
  obtain ⟨a8, a9, hm⟩ := store8_mem buffer b0 b1 b2 b3 b4 b5 b6 b7
  have hc : crc16 (buffer.store 0 [b0, b1, b2, b3, b4, b5, b6, b7]).mem 6 = crc16 w.rx 6 := by
    rw [hm, hrx]; exact crc16_prefix6 _ _ _ _ _ _ _ _
  have hl : (buffer.store 0 [b0, b1, b2, b3, b4, b5, b6, b7]).peek16 6 = le16 w.rx 6 := by
    simp [Packet.peek16, Packet.peek, hm, hrx, le16, byteAt]
  simp only [receivePkt_check, HEADER_LENGTH, hc, hl]

/-- The header fields of the buffer after a seven-byte read. -/
theorem store7_fields (buffer : Packet) (b0 b1 b2 b3 b4 b5 b6 : Byte) :
    (buffer.store 0 [b0, b1, b2, b3, b4, b5, b6]).device_addr = b1.val + 256 * b2.val ∧
    (buffer.store 0 [b0, b1, b2, b3, b4, b5, b6]).function = b3.val ∧
    (buffer.store 0 [b0, b1, b2, b3, b4, b5, b6]).data_addr = b4.val := by
  obtain ⟨a7, a8, a9, hm⟩ := store7_mem buffer b0 b1 b2 b3 b4 b5 b6
  simp [Packet.device_addr, Packet.function, Packet.data_addr, Packet.peek16, Packet.peek, hm]

/-- The header fields of the buffer after a seven-byte and a one-byte read. -/
theorem store8_fields (buffer : Packet) (b0 b1 b2 b3 b4 b5 b6 b7 : Byte) :
    (buffer.store 0 [b0, b1, b2, b3, b4, b5, b6, b7]).device_addr = b1.val + 256 * b2.val ∧
    (buffer.store 0 [b0, b1, b2, b3, b4, b5, b6, b7]).function = b3.val ∧
    (buffer.store 0 [b0, b1, b2, b3, b4, b5, b6, b7]).data_addr = b4.val := by
  obtain ⟨a8, a9, hm⟩ := store8_mem buffer b0 b1 b2 b3 b4 b5 b6 b7
  simp [Packet.device_addr, Packet.function, Packet.data_addr, Packet.peek16, Packet.peek, hm]

/-- The five ways a call of `receivePkt` can go, each with its complete result. -/
theorem receivePkt_cases (w : World) (buffer : Packet) :
    (w.rx.length < 7 ∧
      receivePkt w buffer =
        if w.rxErr then (-1, (w.log (.read 7 (-1))).print .readError, buffer)
        else (-1, ({ w with rx := [] }.log (.read 7 w.rx.length)).print
          (.malformed w.rx.length 7), buffer.store 0 w.rx)) ∨
    (∃ b0 b1 b2 b3 b4 b5 b6 rest, w.rx = b0 :: b1 :: b2 :: b3 :: b4 :: b5 :: b6 :: rest ∧
      b3.val ≠ 2 ∧ b3.val ≠ 4 ∧
      receivePkt w buffer =
        (-1, ({ w with rx := rest }.log (.read 7 7)).print (.unexpectedFunction b3.val),
          buffer.store 0 [b0, b1, b2, b3, b4, b5, b6])) ∨
    (∃ b0 b1 b2 b3 b4 b5 b6 rest, w.rx = b0 :: b1 :: b2 :: b3 :: b4 :: b5 :: b6 :: rest ∧
      b3.val = 4 ∧
      receivePkt w buffer =
        if crc16 w.rx 5 ≠ le16 w.rx 5 then
          (-1, ({ w with rx := rest }.log (.read 7 7)).print
            (.crcMismatch (le16 w.rx 5) (crc16 w.rx 5)),
            buffer.store 0 [b0, b1, b2, b3, b4, b5, b6])
        else
          (0, { w with rx := rest }.log (.read 7 7),
            buffer.store 0 [b0, b1, b2, b3, b4, b5, b6])) ∨
    (∃ b0 b1 b2 b3 b4 b5 b6, w.rx = [b0, b1, b2, b3, b4, b5, b6] ∧ b3.val = 2 ∧
      receivePkt w buffer =
        if w.rxErr then
          (-1, (({ w with rx := [] }.log (.read 7 7)).log (.read 1 (-1))).print .readError,
            buffer.store 0 [b0, b1, b2, b3, b4, b5, b6])
        else
          (-1, (({ w with rx := [] }.log (.read 7 7)).log (.read 1 0)).print (.malformed 0 1),
            buffer.store 0 [b0, b1, b2, b3, b4, b5, b6])) ∨
    (∃ b0 b1 b2 b3 b4 b5 b6 b7 rest,
      w.rx = b0 :: b1 :: b2 :: b3 :: b4 :: b5 :: b6 :: b7 :: rest ∧ b3.val = 2 ∧
      receivePkt w buffer =
        if crc16 w.rx 6 ≠ le16 w.rx 6 then
          (-1, (({ w with rx := rest }.log (.read 7 7)).log (.read 1 1)).print
            (.crcMismatch (le16 w.rx 6) (crc16 w.rx 6)),
            buffer.store 0 [b0, b1, b2, b3, b4, b5, b6, b7])
        else
          (0, ({ w with rx := rest }.log (.read 7 7)).log (.read 1 1),
            buffer.store 0 [b0, b1, b2, b3, b4, b5, b6, b7])) := by
  rcases Nat.lt_or_ge w.rx.length 7 with h | h
  · exact Or.inl ⟨h, receivePkt_short w buffer h⟩
  · obtain ⟨b0, b1, b2, b3, b4, b5, b6, rest, hrx⟩ := exists_cons7 w.rx h
    by_cases h2 : b3.val = 2
    · cases rest with
      | nil =>
        exact Or.inr (Or.inr (Or.inr (Or.inl ⟨b0, b1, b2, b3, b4, b5, b6, hrx, h2,
          receivePkt_write_short w buffer b0 b1 b2 b3 b4 b5 b6 hrx h2⟩)))
      | cons b7 rest =>
        exact Or.inr (Or.inr (Or.inr (Or.inr ⟨b0, b1, b2, b3, b4, b5, b6, b7, rest, hrx, h2,
          receivePkt_write_eq w buffer b0 b1 b2 b3 b4 b5 b6 b7 rest hrx h2⟩)))
    · by_cases h4 : b3.val = 4
      · exact Or.inr (Or.inr (Or.inl ⟨b0, b1, b2, b3, b4, b5, b6, rest, hrx, h4,
          receivePkt_request_eq w buffer b0 b1 b2 b3 b4 b5 b6 rest hrx h4⟩))
      · exact Or.inr (Or.inl ⟨b0, b1, b2, b3, b4, b5, b6, rest, hrx, h2, h4,
          receivePkt_other w buffer b0 b1 b2 b3 b4 b5 b6 rest hrx h2 h4⟩)

/-- C2: `receivePkt` returns `0` exactly when the line holds at least 7 bytes with function
byte `REQUEST` and bytes 5..6 equal, low byte first, to `crc16` of bytes 0..4, or at least 8
bytes with function byte `WRITE` and bytes 6..7 equal to `crc16` of bytes 0..5. On success
the buffer's `device_addr` is byte 1 + 256 * byte 2 and its `function` is byte 3. When the
bytes are there and the function is accepted but the checksums differ, it returns `-1` and
its last message is the CRC mismatch, with the received and the calculated value. -/
theorem receivePkt_accepts_iff (w : World) (buffer : Packet) :
    ((receivePkt w buffer).1 = 0 ↔
      (7 ≤ w.rx.length ∧ byteAt w.rx 3 = FUNCTION_REQUEST ∧ le16 w.rx 5 = crc16 w.rx 5) ∨
      (8 ≤ w.rx.length ∧ byteAt w.rx 3 = FUNCTION_WRITE ∧ le16 w.rx 6 = crc16 w.rx 6)) ∧
    ((receivePkt w buffer).1 = 0 →
      (receivePkt w buffer).2.2.device_addr = byteAt w.rx 1 + 256 * byteAt w.rx 2 ∧
      (receivePkt w buffer).2.2.function = byteAt w.rx 3) ∧
    (7 ≤ w.rx.length ∧ byteAt w.rx 3 = FUNCTION_REQUEST ∧ le16 w.rx 5 ≠ crc16 w.rx 5 →
      (receivePkt w buffer).1 = -1 ∧
      (receiveEvents w buffer).getLast? =
        some (.print (.crcMismatch (le16 w.rx 5) (crc16 w.rx 5)))) ∧
    (8 ≤ w.rx.length ∧ byteAt w.rx 3 = FUNCTION_WRITE ∧ le16 w.rx 6 ≠ crc16 w.rx 6 →
      (receivePkt w buffer).1 = -1 ∧
      (receiveEvents w buffer).getLast? =
        some (.print (.crcMismatch (le16 w.rx 6) (crc16 w.rx 6)))) := by
  rcases receivePkt_cases w buffer with ⟨h, he⟩ | ⟨b0, b1, b2, b3, b4, b5, b6, rest, hrx, h2, h4, he⟩ |
    ⟨b0, b1, b2, b3, b4, b5, b6, rest, hrx, h4, he⟩ | ⟨b0, b1, b2, b3, b4, b5, b6, hrx, h2, he⟩ |
    ⟨b0, b1, b2, b3, b4, b5, b6, b7, rest, hrx, h2, he⟩
  · have h7 : ¬ 7 ≤ w.rx.length := by omega
    have h8 : ¬ 8 ≤ w.rx.length := by omega
    cases hE : w.rxErr <;> simp [he, hE, h7, h8]
  · have hb : byteAt w.rx 3 = b3.val := by simp [byteAt, hrx]
    simp [he, hb, h2, h4, FUNCTION_REQUEST, FUNCTION_WRITE]
  · have hb : byteAt w.rx 3 = b3.val := by simp [byteAt, hrx]
    have hl : 7 ≤ w.rx.length := by simp [hrx]
    have hf := store7_fields buffer b0 b1 b2 b3 b4 b5 b6
    have h1 : byteAt w.rx 1 = b1.val := by simp [byteAt, hrx]
    have h2 : byteAt w.rx 2 = b2.val := by simp [byteAt, hrx]
    by_cases hc : crc16 w.rx 5 = le16 w.rx 5
    · simp [he, hb, h4, hc, hl, FUNCTION_REQUEST, FUNCTION_WRITE, hf, h1, h2]
    · have hc' : ¬ le16 w.rx 5 = crc16 w.rx 5 := fun h => hc h.symm
      simp [he, hb, h4, hc, hc', hl, FUNCTION_REQUEST, FUNCTION_WRITE, receiveEvents, World.print,
        World.log]
  · have hb : byteAt w.rx 3 = b3.val := by simp [byteAt, hrx]
    have h8 : ¬ 8 ≤ w.rx.length := by simp [hrx]
    cases hE : w.rxErr <;> simp [he, hE, hb, h2, h8, FUNCTION_REQUEST, FUNCTION_WRITE]
  · have hb : byteAt w.rx 3 = b3.val := by simp [byteAt, hrx]
    have hl : 8 ≤ w.rx.length := by simp [hrx]
    have hf := store8_fields buffer b0 b1 b2 b3 b4 b5 b6 b7
    have h1 : byteAt w.rx 1 = b1.val := by simp [byteAt, hrx]
    have h2' : byteAt w.rx 2 = b2.val := by simp [byteAt, hrx]
    by_cases hc : crc16 w.rx 6 = le16 w.rx 6
    · simp [he, hb, h2, hc, hl, FUNCTION_REQUEST, FUNCTION_WRITE, hf, h1, h2']
    · have hc' : ¬ le16 w.rx 6 = crc16 w.rx 6 := fun h => hc h.symm
      simp [he, hb, h2, hc, hc', hl, FUNCTION_REQUEST, FUNCTION_WRITE, receiveEvents, World.print,
        World.log]

/-! ## Encoding -/

/-- The encoding of a frame without payload. -/
theorem encode_empty (f : Frame) (scratch : Packet) (hp : f.payload = []) :
    ∃ t : List Byte, encode f scratch = some
      [toByte START_BYTE, toByte f.device_addr, toByte (f.device_addr / 256), f.function,
        f.data_addr,
        toByte (crc16 (toByte START_BYTE :: toByte f.device_addr ::
          toByte (f.device_addr / 256) :: f.function :: f.data_addr :: t) 5),
        toByte (crc16 (toByte START_BYTE :: toByte f.device_addr ::
          toByte (f.device_addr / 256) :: f.function :: f.data_addr :: t) 5 >>> 8)] := by
  obtain ⟨a0, a1, a2, a3, a4, a5, a6, a7, a8, a9, hm⟩ := scratch.exists_mem
  refine ⟨[a5, a6, a7, a8, a9], ?_⟩
  simp [encode, wireBytes, sendPkt, set_src, write, writeReturn, World.sink, World.log, Frame.fill, hp,
    Packet.set_start, Packet.set_device_addr, Packet.set_function, Packet.set_data_addr,
    Packet.set_data, Packet.poke16, Packet.poke, Packet.store, hm, MIN_PKT_LENGTH,
    HEADER_LENGTH, toByte_of_val]


/-- The encoding of a frame with one payload byte. -/
theorem encode_one (f : Frame) (scratch : Packet) (p : Byte) (hp : f.payload = [p]) :
    ∃ t : List Byte, encode f scratch = some
      [toByte START_BYTE, toByte f.device_addr, toByte (f.device_addr / 256), f.function,
        f.data_addr, p,
        toByte (crc16 (toByte START_BYTE :: toByte f.device_addr ::
          toByte (f.device_addr / 256) :: f.function :: f.data_addr :: p :: t) 6),
        toByte (crc16 (toByte START_BYTE :: toByte f.device_addr ::
          toByte (f.device_addr / 256) :: f.function :: f.data_addr :: p :: t) 6 >>> 8)] := by
  obtain ⟨a0, a1, a2, a3, a4, a5, a6, a7, a8, a9, hm⟩ := scratch.exists_mem
  refine ⟨[a6, a7, a8, a9], ?_⟩
  simp [encode, wireBytes, sendPkt, set_src, write, writeReturn, World.sink, World.log, Frame.fill, hp,
    Packet.set_start, Packet.set_device_addr, Packet.set_function, Packet.set_data_addr,
    Packet.set_data, Packet.poke16, Packet.poke, Packet.store, hm, MIN_PKT_LENGTH,
    HEADER_LENGTH, toByte_of_val]

/-- A device address below `65536` is the two bytes it is stored in, read back. -/
theorem addr_bytes (a : Nat) (h : a ≤ 65535) :
    (toByte a).val + 256 * (toByte (a / 256)).val = a := by
  simp only [toByte_val]
  omega

/-- A checksum is the two bytes `set_src` stores, read back. -/
theorem crc_bytes (c : Nat) (h : c < 65536) :
    (toByte c).val + 256 * (toByte (c >>> 8)).val = c := by
  simp only [toByte_val]
  exact le_bytes c h

/-- A `REQUEST` frame followed by its checksum, low byte first, is accepted. -/
theorem receivePkt_request_ok (w : World) (buffer : Packet) (b0 b1 b2 b3 b4 : Byte)
    (t tail : List Byte) (h3 : b3.val = 4)
    (hrx : w.rx = b0 :: b1 :: b2 :: b3 :: b4 ::
      toByte (crc16 (b0 :: b1 :: b2 :: b3 :: b4 :: t) 5) ::
      toByte (crc16 (b0 :: b1 :: b2 :: b3 :: b4 :: t) 5 >>> 8) :: tail) :
    receivePkt w buffer =
      ((0 : Int), ({ w with rx := tail } : World).log (.read 7 7),
        buffer.store 0 [b0, b1, b2, b3, b4, toByte (crc16 (b0 :: b1 :: b2 :: b3 :: b4 :: t) 5),
          toByte (crc16 (b0 :: b1 :: b2 :: b3 :: b4 :: t) 5 >>> 8)]) := by
  rw [receivePkt_request_eq w buffer _ _ _ _ _ _ _ tail hrx h3]
  have hc : crc16 w.rx 5 = crc16 (b0 :: b1 :: b2 :: b3 :: b4 :: t) 5 := by
    rw [hrx]; exact crc16_prefix5 _ _ _ _ _ _ _
  have hl : le16 w.rx 5 = crc16 (b0 :: b1 :: b2 :: b3 :: b4 :: t) 5 := by
    rw [hrx]
    simp only [le16, byteAt, List.getD_cons_succ, List.getD_cons_zero]
    exact crc_bytes _ (crc16_lt _ _)
  rw [hc, hl]
  simp

/-- A `WRITE` frame with one payload byte followed by its checksum, low byte first, is
accepted. -/
theorem receivePkt_write_ok (w : World) (buffer : Packet) (b0 b1 b2 b3 b4 b5 : Byte)
    (t tail : List Byte) (h3 : b3.val = 2)
    (hrx : w.rx = b0 :: b1 :: b2 :: b3 :: b4 :: b5 ::
      toByte (crc16 (b0 :: b1 :: b2 :: b3 :: b4 :: b5 :: t) 6) ::
      toByte (crc16 (b0 :: b1 :: b2 :: b3 :: b4 :: b5 :: t) 6 >>> 8) :: tail) :
    receivePkt w buffer =
      ((0 : Int), (({ w with rx := tail } : World).log (.read 7 7)).log (.read 1 1),
        buffer.store 0 [b0, b1, b2, b3, b4, b5,
          toByte (crc16 (b0 :: b1 :: b2 :: b3 :: b4 :: b5 :: t) 6),
          toByte (crc16 (b0 :: b1 :: b2 :: b3 :: b4 :: b5 :: t) 6 >>> 8)]) := by
  rw [receivePkt_write_eq w buffer _ _ _ _ _ _ _ _ tail hrx h3]
  have hc : crc16 w.rx 6 = crc16 (b0 :: b1 :: b2 :: b3 :: b4 :: b5 :: t) 6 := by
    rw [hrx]; exact crc16_prefix6 _ _ _ _ _ _ _ _
  have hl : le16 w.rx 6 = crc16 (b0 :: b1 :: b2 :: b3 :: b4 :: b5 :: t) 6 := by
    rw [hrx]
    simp only [le16, byteAt, List.getD_cons_succ, List.getD_cons_zero]
    exact crc_bytes _ (crc16_lt _ _)
  rw [hc, hl]
  simp

/-- C1, as amended: a frame of one of the two shapes `receivePkt` accepts (function
`REQUEST` without payload, or function `WRITE` with exactly one payload byte) and with
`device_addr` in `0..65535`, any `data_addr`, round-trips: `receivePkt` on the bytes that
`set_src`/`sendPkt` emit for it, followed by any tail, returns `0` and the buffer holds the
frame's `device_addr`, `function` and `data_addr`. -/
theorem roundtrip_inbound_shapes (f : Frame) (tail : List Byte) (w : World)
    (scratch buffer : Packet) (haddr : f.device_addr ≤ 65535)
    (hshape : (f.function.val = FUNCTION_REQUEST ∧ f.payload = []) ∨
      (f.function.val = FUNCTION_WRITE ∧ f.payload.length = 1)) :
    RoundTrips f tail w scratch buffer := by
  rcases hshape with ⟨hf, hp⟩ | ⟨hf, hp⟩
  · obtain ⟨t, he⟩ := encode_empty f scratch hp
    unfold RoundTrips
    rw [he]
    simp only
    rw [receivePkt_request_ok { w with rx := _ ++ tail } buffer (toByte START_BYTE)
      (toByte f.device_addr) (toByte (f.device_addr / 256)) f.function f.data_addr t tail hf
      (by simp)]
    have hfl := store7_fields buffer (toByte START_BYTE) (toByte f.device_addr)
      (toByte (f.device_addr / 256)) f.function f.data_addr
      (toByte (crc16 (toByte START_BYTE :: toByte f.device_addr ::
        toByte (f.device_addr / 256) :: f.function :: f.data_addr :: t) 5))
      (toByte (crc16 (toByte START_BYTE :: toByte f.device_addr ::
        toByte (f.device_addr / 256) :: f.function :: f.data_addr :: t) 5 >>> 8))
    rw [addr_bytes _ haddr] at hfl
    exact ⟨rfl, hfl.1, hfl.2.1, hfl.2.2⟩
  · obtain ⟨p, hp1⟩ := List.length_eq_one.mp hp
    obtain ⟨t, he⟩ := encode_one f scratch p hp1
    unfold RoundTrips
    rw [he]
    simp only
    rw [receivePkt_write_ok { w with rx := _ ++ tail } buffer (toByte START_BYTE)
      (toByte f.device_addr) (toByte (f.device_addr / 256)) f.function f.data_addr p t tail hf
      (by simp)]
    have hfl := store8_fields buffer (toByte START_BYTE) (toByte f.device_addr)
      (toByte (f.device_addr / 256)) f.function f.data_addr p
      (toByte (crc16 (toByte START_BYTE :: toByte f.device_addr ::
        toByte (f.device_addr / 256) :: f.function :: f.data_addr :: p :: t) 6))
      (toByte (crc16 (toByte START_BYTE :: toByte f.device_addr ::
        toByte (f.device_addr / 256) :: f.function :: f.data_addr :: p :: t) 6 >>> 8))
    rw [addr_bytes _ haddr] at hfl
    exact ⟨rfl, hfl.1, hfl.2.1, hfl.2.2⟩

set_option maxRecDepth 100000 in
/-- Witness for `roundtrip_inbound_shapes`: an identification frame from device `0x1234`
followed by three more bytes. -/
theorem roundtrip_inbound_shapes_witness :
    RoundTrips ⟨0x1234, 4, 0, []⟩ [1, 2, 3] World.sink Packet.zero Packet.zero :=
  roundtrip_inbound_shapes ⟨0x1234, 4, 0, []⟩ [1, 2, 3] World.sink Packet.zero Packet.zero
    (by decide) (by decide)

set_option maxRecDepth 100000 in
/-- C1 as stated fails: the frame with function `CONTROL` (3), `device_addr` `0x1234`,
`data_addr` 0 and no payload is validly constructed, yet `receivePkt` rejects its
encoding. -/
theorem roundtrip_fails_control :
    ¬ RoundTrips ⟨0x1234, 3, 0, []⟩ [] World.sink Packet.zero Packet.zero := by
  decide

set_option maxRecDepth 100000 in
/-- The round trip also fails for an accepted function with another payload length: a
`REQUEST` frame with one payload byte, and the three-byte `WRITE` command of `main`. -/
theorem roundtrip_fails_other_lengths :
    ¬ RoundTrips ⟨0x1234, 4, 0, [0]⟩ [] World.sink Packet.zero Packet.zero ∧
    ¬ RoundTrips ⟨0, 2, 0, [2, 0, 0x20]⟩ [] World.sink Packet.zero Packet.zero := by
  decide

/-- C3: the reads of `receivePkt` are staged. Its first call of `read` asks for exactly 7
bytes, and if the line cannot supply them nothing more is read. Once the 7 bytes are in, it
asks for exactly one more byte if and only if the function byte (byte 3) is `WRITE`. A call
that returns `0` has consumed exactly 7 bytes for `REQUEST` and exactly 8 for `WRITE`, the
rest of the stream is left on the line. If the function byte is neither `WRITE` nor
`REQUEST`, the call returns `-1`, its events are the 7-byte read and the unexpected-function
message, and exactly 7 bytes are consumed, whatever bytes 5..6 hold. -/
theorem receivePkt_staged (w : World) (buffer : Packet) :
    (∃ r, (reads (receiveEvents w buffer)).head? = some (.read 7 r)) ∧
    (w.rx.length < 7 → ∃ r, reads (receiveEvents w buffer) = [.read 7 r]) ∧
    (7 ≤ w.rx.length → byteAt w.rx 3 = FUNCTION_WRITE →
      ∃ r, reads (receiveEvents w buffer) = [.read 7 7, .read 1 r]) ∧
    (7 ≤ w.rx.length → byteAt w.rx 3 ≠ FUNCTION_WRITE →
      reads (receiveEvents w buffer) = [.read 7 7]) ∧
    ((receivePkt w buffer).1 = 0 → byteAt w.rx 3 = FUNCTION_REQUEST →
      (receivePkt w buffer).2.1.rx = w.rx.drop 7) ∧
    ((receivePkt w buffer).1 = 0 → byteAt w.rx 3 = FUNCTION_WRITE →
      (receivePkt w buffer).2.1.rx = w.rx.drop 8) ∧
    (7 ≤ w.rx.length → byteAt w.rx 3 ≠ FUNCTION_WRITE → byteAt w.rx 3 ≠ FUNCTION_REQUEST →
      (receivePkt w buffer).1 = -1 ∧
      receiveEvents w buffer = [.read 7 7, .print (.unexpectedFunction (byteAt w.rx 3))] ∧
      (receivePkt w buffer).2.1.rx = w.rx.drop 7) := by
  rcases receivePkt_cases w buffer with ⟨h, he⟩ |
    ⟨b0, b1, b2, b3, b4, b5, b6, rest, hrx, h2, h4, he⟩ |
    ⟨b0, b1, b2, b3, b4, b5, b6, rest, hrx, h4, he⟩ | ⟨b0, b1, b2, b3, b4, b5, b6, hrx, h2, he⟩ |
    ⟨b0, b1, b2, b3, b4, b5, b6, b7, rest, hrx, h2, he⟩
  · have h7 : ¬ 7 ≤ w.rx.length := by omega
    cases hE : w.rxErr <;>
      simp [he, hE, h7, h, receiveEvents, reads, World.print, World.log, Event.isRead]
  · have hb : byteAt w.rx 3 = b3.val := by simp [byteAt, hrx]
    have hl : 7 ≤ w.rx.length := by simp [hrx]
    have hl' : ¬ w.rx.length < 7 := by omega
    have hd : w.rx.drop 7 = rest := by simp [hrx]
    simp [he, hb, h2, h4, hl, hl', hd, receiveEvents, reads, World.print, World.log,
      Event.isRead, FUNCTION_REQUEST, FUNCTION_WRITE]
  · have hb : byteAt w.rx 3 = b3.val := by simp [byteAt, hrx]
    have hl : 7 ≤ w.rx.length := by simp [hrx]
    have hl' : ¬ w.rx.length < 7 := by omega
    have hd : w.rx.drop 7 = rest := by simp [hrx]
    by_cases hc : crc16 w.rx 5 = le16 w.rx 5 <;>
      simp [he, hb, h4, hc, hl, hl', hd, receiveEvents, reads, World.print, World.log,
        Event.isRead, FUNCTION_REQUEST, FUNCTION_WRITE]
  · have hb : byteAt w.rx 3 = b3.val := by simp [byteAt, hrx]
    have hl : 7 ≤ w.rx.length := by simp [hrx]
    have hl' : ¬ w.rx.length < 7 := by omega
    cases hE : w.rxErr <;>
      simp [he, hE, hb, h2, hl, hl', receiveEvents, reads, World.print, World.log,
        Event.isRead, FUNCTION_REQUEST, FUNCTION_WRITE]
  · have hb : byteAt w.rx 3 = b3.val := by simp [byteAt, hrx]
    have hl : 7 ≤ w.rx.length := by simp [hrx]
    have hl' : ¬ w.rx.length < 7 := by omega
    have hd : w.rx.drop 8 = rest := by simp [hrx]
    by_cases hc : crc16 w.rx 6 = le16 w.rx 6 <;>
      simp [he, hb, h2, hc, hl, hl', hd, receiveEvents, reads, World.print, World.log,
        Event.isRead, FUNCTION_REQUEST, FUNCTION_WRITE]

/-! ## `receivePkt`: what a call leaves behind -/

/-- A call of `receivePkt` returns `0` or `-1`. -/
theorem receivePkt_ret (w : World) (buffer : Packet) :
    (receivePkt w buffer).1 = 0 ∨ (receivePkt w buffer).1 = -1 := by
  rcases receivePkt_cases w buffer with ⟨h, he⟩ |
    ⟨b0, b1, b2, b3, b4, b5, b6, rest, hrx, h2, h4, he⟩ |
    ⟨b0, b1, b2, b3, b4, b5, b6, rest, hrx, h4, he⟩ | ⟨b0, b1, b2, b3, b4, b5, b6, hrx, h2, he⟩ |
    ⟨b0, b1, b2, b3, b4, b5, b6, b7, rest, hrx, h2, he⟩
  · cases hE : w.rxErr <;> simp [he, hE]
  · simp [he]
  · by_cases hc : crc16 w.rx 5 = le16 w.rx 5 <;> simp [he, hc]
  · cases hE : w.rxErr <;> simp [he, hE]
  · by_cases hc : crc16 w.rx 6 = le16 w.rx 6 <;> simp [he, hc]

/-- Whether `receivePkt` returns `0` is decided by the bytes on the line alone. -/
theorem receivePkt_zero_iff (w : World) (buffer : Packet) :
    (receivePkt w buffer).1 = 0 ↔
      (7 ≤ w.rx.length ∧ byteAt w.rx 3 = FUNCTION_REQUEST ∧ le16 w.rx 5 = crc16 w.rx 5) ∨
      (8 ≤ w.rx.length ∧ byteAt w.rx 3 = FUNCTION_WRITE ∧ le16 w.rx 6 = crc16 w.rx 6) := by
  rcases receivePkt_cases w buffer with ⟨h, he⟩ |
    ⟨b0, b1, b2, b3, b4, b5, b6, rest, hrx, h2, h4, he⟩ |
    ⟨b0, b1, b2, b3, b4, b5, b6, rest, hrx, h4, he⟩ | ⟨b0, b1, b2, b3, b4, b5, b6, hrx, h2, he⟩ |
    ⟨b0, b1, b2, b3, b4, b5, b6, b7, rest, hrx, h2, he⟩
  · have h7 : ¬ 7 ≤ w.rx.length := by omega
    have h8 : ¬ 8 ≤ w.rx.length := by omega
    cases hE : w.rxErr <;> simp [he, hE, h7, h8]
  · have hb : byteAt w.rx 3 = b3.val := by simp [byteAt, hrx]
    simp [he, hb, h2, h4, FUNCTION_REQUEST, FUNCTION_WRITE]
  · have hb : byteAt w.rx 3 = b3.val := by simp [byteAt, hrx]
    have hl : 7 ≤ w.rx.length := by simp [hrx]
    by_cases hc : crc16 w.rx 5 = le16 w.rx 5
    · simp [he, hb, h4, hc, hl, FUNCTION_REQUEST, FUNCTION_WRITE]
    · have hc' : ¬ le16 w.rx 5 = crc16 w.rx 5 := fun h => hc h.symm
      simp [he, hb, h4, hc, hc', FUNCTION_REQUEST, FUNCTION_WRITE]
  · have hb : byteAt w.rx 3 = b3.val := by simp [byteAt, hrx]
    have h8 : ¬ 8 ≤ w.rx.length := by simp [hrx]
    cases hE : w.rxErr <;> simp [he, hE, hb, h2, h8, FUNCTION_REQUEST, FUNCTION_WRITE]
  · have hb : byteAt w.rx 3 = b3.val := by simp [byteAt, hrx]
    have hl : 8 ≤ w.rx.length := by simp [hrx]
    by_cases hc : crc16 w.rx 6 = le16 w.rx 6
    · simp [he, hb, h2, hc, hl, FUNCTION_REQUEST, FUNCTION_WRITE]
    · have hc' : ¬ le16 w.rx 6 = crc16 w.rx 6 := fun h => hc h.symm
      simp [he, hb, h2, hc, hc', FUNCTION_REQUEST, FUNCTION_WRITE]

/-- The return value of `receivePkt` is the same on two worlds with the same bytes on the
line, whatever the buffers hold. -/
theorem receivePkt_ret_congr (w w' : World) (buffer buffer' : Packet) (h : w.rx = w'.rx) :
    (receivePkt w buffer).1 = (receivePkt w' buffer').1 := by
  have h1 := receivePkt_zero_iff w buffer
  have h2 := receivePkt_zero_iff w' buffer'
  rw [h] at h1
  have h3 : (receivePkt w buffer).1 = 0 ↔ (receivePkt w' buffer').1 = 0 := h1.trans h2.symm
  rcases receivePkt_ret w buffer with ha | ha <;> rcases receivePkt_ret w' buffer' with hb | hb
  · rw [ha, hb]
  · rw [h3.mp ha] at hb; simp at hb
  · rw [h3.mpr hb] at ha; simp at ha
  · rw [ha, hb]

/-- After a call of `receivePkt` that returns `0` the header fields of the buffer are the
bytes 1..4 of the stream. -/
theorem receivePkt_fields (w : World) (buffer : Packet) (h0 : (receivePkt w buffer).1 = 0) :
    (receivePkt w buffer).2.2.device_addr = le16 w.rx 1 ∧
    (receivePkt w buffer).2.2.function = byteAt w.rx 3 ∧
    (receivePkt w buffer).2.2.data_addr = byteAt w.rx 4 := by
  rcases receivePkt_cases w buffer with ⟨h, he⟩ |
    ⟨b0, b1, b2, b3, b4, b5, b6, rest, hrx, h2, h4, he⟩ |
    ⟨b0, b1, b2, b3, b4, b5, b6, rest, hrx, h4, he⟩ | ⟨b0, b1, b2, b3, b4, b5, b6, hrx, h2, he⟩ |
    ⟨b0, b1, b2, b3, b4, b5, b6, b7, rest, hrx, h2, he⟩
  · cases hE : w.rxErr <;> simp [he, hE] at h0
  · simp [he] at h0
  · have hs : le16 w.rx 1 = b1.val + 256 * b2.val ∧ byteAt w.rx 3 = b3.val ∧
        byteAt w.rx 4 = b4.val := by simp [le16, byteAt, hrx]
    by_cases hc : crc16 w.rx 5 = le16 w.rx 5
    · rw [he, hs.1, hs.2.1, hs.2.2]
      simp only [hc, ne_eq, not_true_eq_false, ite_false]
      exact store7_fields buffer b0 b1 b2 b3 b4 b5 b6
    · simp [he, hc] at h0
  · cases hE : w.rxErr <;> simp [he, hE] at h0
  · have hs : le16 w.rx 1 = b1.val + 256 * b2.val ∧ byteAt w.rx 3 = b3.val ∧
        byteAt w.rx 4 = b4.val := by simp [le16, byteAt, hrx]
    by_cases hc : crc16 w.rx 6 = le16 w.rx 6
    · rw [he, hs.1, hs.2.1, hs.2.2]
      simp only [hc, ne_eq, not_true_eq_false, ite_false]
      exact store8_fields buffer b0 b1 b2 b3 b4 b5 b6 b7
    · simp [he, hc] at h0

/-- A call of `receivePkt` only adds to the trace, never a `write`, and leaves the other
settings of the port alone; the bytes left on the line are a tail of those before. -/
theorem receivePkt_world (w : World) (buffer : Packet) :
    (receivePkt w buffer).2.1.trace = w.trace ++ receiveEvents w buffer ∧
    writes (receiveEvents w buffer) = [] ∧
    (receivePkt w buffer).2.1.txRoom = w.txRoom ∧
    (receivePkt w buffer).2.1.rxErr = w.rxErr := by
  rcases receivePkt_cases w buffer with ⟨h, he⟩ |
    ⟨b0, b1, b2, b3, b4, b5, b6, rest, hrx, h2, h4, he⟩ |
    ⟨b0, b1, b2, b3, b4, b5, b6, rest, hrx, h4, he⟩ | ⟨b0, b1, b2, b3, b4, b5, b6, hrx, h2, he⟩ |
    ⟨b0, b1, b2, b3, b4, b5, b6, b7, rest, hrx, h2, he⟩
  · cases hE : w.rxErr <;>
      simp [he, hE, receiveEvents, writes, World.print, World.log, Event.isWrite]
  · simp [he, receiveEvents, writes, World.print, World.log, Event.isWrite]
  · by_cases hc : crc16 w.rx 5 = le16 w.rx 5 <;>
      simp [he, hc, receiveEvents, writes, World.print, World.log, Event.isWrite]
  · cases hE : w.rxErr <;>
      simp [he, hE, receiveEvents, writes, World.print, World.log, Event.isWrite]
  · by_cases hc : crc16 w.rx 6 = le16 w.rx 6 <;>
      simp [he, hc, receiveEvents, writes, World.print, World.log, Event.isWrite]

/-- Every call of `receivePkt` starts with a call of `read`. -/
theorem receiveEvents_head (w : World) (buffer : Packet) :
    ∃ r rest, receiveEvents w buffer = .read 7 r :: rest := by
  rcases receivePkt_cases w buffer with ⟨h, he⟩ |
    ⟨b0, b1, b2, b3, b4, b5, b6, rest, hrx, h2, h4, he⟩ |
    ⟨b0, b1, b2, b3, b4, b5, b6, rest, hrx, h4, he⟩ | ⟨b0, b1, b2, b3, b4, b5, b6, hrx, h2, he⟩ |
    ⟨b0, b1, b2, b3, b4, b5, b6, b7, rest, hrx, h2, he⟩
  · cases hE : w.rxErr <;> simp [he, hE, receiveEvents, World.print, World.log]
  · simp [he, receiveEvents, World.print, World.log]
  · by_cases hc : crc16 w.rx 5 = le16 w.rx 5 <;>
      simp [he, hc, receiveEvents, World.print, World.log]
  · cases hE : w.rxErr <;> simp [he, hE, receiveEvents, World.print, World.log]
  · by_cases hc : crc16 w.rx 6 = le16 w.rx 6 <;>
      simp [he, hc, receiveEvents, World.print, World.log]

/-! ## The write command and the confirmation -/

theorem toByte_mod (n : Nat) : toByte (n % 256) = toByte n := by
  apply Fin.ext
  simp [toByte]

theorem toByte_shift (n : Nat) : toByte (n >>> 8) = toByte (n / 256) := by
  rw [Nat.shiftRight_eq_div_pow]

theorem crc16_prefix8 (b0 b1 b2 b3 b4 b5 b6 b7 : Byte) (t t' : List Byte) :
    crc16 (b0 :: b1 :: b2 :: b3 :: b4 :: b5 :: b6 :: b7 :: t) 8 =
      crc16 (b0 :: b1 :: b2 :: b3 :: b4 :: b5 :: b6 :: b7 :: t') 8 := by
  apply crc16_congr
  intro i hi
  interval_cases i <;> simp

/-- The command buffer `main` builds and `set_src` completes holds the write command. -/
theorem command_buffer (buffer : Packet) (t : Nat) :
    ∃ cmd : Packet, cmd.mem = writeCommand t ∧
      set_src (((((((buffer.set_start START_BYTE).set_device_addr BROADCAST_ADDR).set_function
        FUNCTION_WRITE).set_data_addr 0).set_data 0 2).set_data 1 t).set_data 2 (t >>> 8)) 3 =
        some cmd := by
  obtain ⟨a0, a1, a2, a3, a4, a5, a6, a7, a8, a9, hm⟩ := buffer.exists_mem
  refine ⟨_, ?_, by simp only [set_src]; rfl⟩
  have e85 : toByte 85 = 85 := by decide
  have e0 : toByte 0 = 0 := by decide
  have e2 : toByte 2 = 2 := by decide
  have hc := crc16_prefix8 0x55 0x00 0x00 0x02 0x00 0x02 (toByte t) (toByte (t / 256)) [a8, a9] []
  simp [Packet.set_start, Packet.set_device_addr, Packet.set_function, Packet.set_data_addr,
    Packet.set_data, Packet.poke16, Packet.poke, hm, HEADER_LENGTH, START_BYTE, BROADCAST_ADDR,
    FUNCTION_WRITE, writeCommand, toByte_mod, toByte_shift, e85, e0, e2, hc]


/-- The part of `main` that sets the address, step by step: the command is handed to
`write`; unless `write` takes all ten bytes the run stops there; otherwise the confirmation
is decoded and classified. -/
theorem setAddress_eq (w : World) (buffer : Packet) (t : Nat) :
    ∃ cmd : Packet, cmd.mem = writeCommand t ∧
      setAddress w buffer t =
        if writeReturn w 10 = -1 then
          some (((w.print (.setting t)).log (.write (writeCommand t) (writeReturn w 10))).print
            .sendError)
        else if writeReturn w 10 < 10 then
          some (((w.print (.setting t)).log (.write (writeCommand t) (writeReturn w 10))).print
            (.sendShort (writeReturn w 10) 10))
        else
          if (receivePkt (((w.print (.setting t)).log
              (.write (writeCommand t) (writeReturn w 10))).print .sent) cmd).1 ≠ -1 then
            if (receivePkt (((w.print (.setting t)).log
                (.write (writeCommand t) (writeReturn w 10))).print .sent) cmd).2.2.function ≠
                FUNCTION_WRITE then
              some ((receivePkt (((w.print (.setting t)).log
                (.write (writeCommand t) (writeReturn w 10))).print .sent) cmd).2.1.print
                (.unexpectedReply (receivePkt (((w.print (.setting t)).log
                  (.write (writeCommand t) (writeReturn w 10))).print .sent) cmd).2.2.function))
            else if (receivePkt (((w.print (.setting t)).log
                (.write (writeCommand t) (writeReturn w 10))).print .sent) cmd).2.2.device_addr ≠ t
                then
              some ((receivePkt (((w.print (.setting t)).log
                (.write (writeCommand t) (writeReturn w 10))).print .sent) cmd).2.1.print
                (.notAccepted (receivePkt (((w.print (.setting t)).log
                  (.write (writeCommand t) (writeReturn w 10))).print .sent) cmd).2.2.device_addr))
            else
              some ((receivePkt (((w.print (.setting t)).log
                (.write (writeCommand t) (writeReturn w 10))).print .sent) cmd).2.1.print .allDone)
          else
            some (receivePkt (((w.print (.setting t)).log
              (.write (writeCommand t) (writeReturn w 10))).print .sent) cmd).2.1 := by
  obtain ⟨cmd, hmem, hset⟩ := command_buffer buffer t
  refine ⟨cmd, hmem, ?_⟩
  have htake : List.take 10 cmd.mem = writeCommand t := by
    rw [← hmem]; exact List.take_of_length_le (by rw [cmd.size])
  have hwr : writeReturn (w.print (.setting t)) 10 = writeReturn w 10 := rfl
  simp only [setAddress, sendPkt, hset, write, MIN_PKT_LENGTH, HEADER_LENGTH, htake, hwr]
  by_cases h1 : writeReturn w 10 = -1
  · simp [h1]
  · by_cases h2 : writeReturn w 10 < 10
    · simp [h1, h2]
    · simp [h1, h2]

/-! ## `main`, step by step -/

@[simp] theorem World.log_trace (w : World) (e : Event) : (w.log e).trace = w.trace ++ [e] := rfl
@[simp] theorem World.print_trace (w : World) (m : Msg) :
    (w.print m).trace = w.trace ++ [.print m] := rfl
@[simp] theorem World.log_rx (w : World) (e : Event) : (w.log e).rx = w.rx := rfl
@[simp] theorem World.print_rx (w : World) (m : Msg) : (w.print m).rx = w.rx := rfl
@[simp] theorem World.log_txRoom (w : World) (e : Event) : (w.log e).txRoom = w.txRoom := rfl
@[simp] theorem World.print_txRoom (w : World) (m : Msg) : (w.print m).txRoom = w.txRoom := rfl
@[simp] theorem writeReturn_log (w : World) (e : Event) (n : Nat) :
    writeReturn (w.log e) n = writeReturn w n := rfl
@[simp] theorem writeReturn_print (w : World) (m : Msg) (n : Nat) :
    writeReturn (w.print m) n = writeReturn w n := rfl

/-- The value `write` returns only depends on the room the line has. -/
theorem writeReturn_congr (w w' : World) (n : Nat) (h : w.txRoom = w'.txRoom) :
    writeReturn w n = writeReturn w' n := by
  simp [writeReturn, h]

/-- A run that gets as far as the wait for the identification frame: it exits with `255`
if the first decode fails, and with `0` otherwise, after setting the address if one was
given. -/
theorem main_started (argc addr_arg : Nat) (w : World) (buffer : Packet)
    (hs : Started argc addr_arg w) :
    main argc addr_arg w buffer =
      if (awaitIdent w buffer).1 = -1 then
        some (255, (awaitIdent w buffer).2.1.log .close)
      else if 2 < argc then
        (setAddress ((awaitIdent w buffer).2.1.print (.found (awaitIdent w buffer).2.2.device_addr))
          (awaitIdent w buffer).2.2 addr_arg).map (fun w' => (0, w'.log .close))
      else
        some (0, ((awaitIdent w buffer).2.1.print
          (.found (awaitIdent w buffer).2.2.device_addr)).log .close) := by
  obtain ⟨h2, ha, ho, hp⟩ := hs
  have h2' : ¬ argc < 2 := by omega
  by_cases h3 : 2 < argc
  · obtain ⟨ha1, ha2⟩ := ha h3
    have hne : addr_arg ≠ 0 := by omega
    have hle : ¬ 65535 < addr_arg := by omega
    have hor : ¬ (65535 < addr_arg ∨ addr_arg = 0) := by omega
    simp only [main, awaitIdent, h2', h3, ho, hp]
    by_cases hr : (receivePkt (w.print .waiting) buffer).1 = -1
    · simp [hr, hor]
    · simp [hr, hor, hne]
      cases setAddress ((receivePkt (w.print .waiting) buffer).2.1.print
        (.found (receivePkt (w.print .waiting) buffer).2.2.device_addr))
        (receivePkt (w.print .waiting) buffer).2.2 addr_arg <;> simp [hle]
  · simp only [main, awaitIdent, h2', h3, ho, hp]
    by_cases hr : (receivePkt (w.print .waiting) buffer).1 = -1
    · simp [hr]
    · simp [hr]

/-- A run that does not get as far as the wait for the identification frame exits with
`255` and performs neither a `read` nor a `write`. -/
theorem main_not_started (argc addr_arg : Nat) (w : World) (buffer : Packet)
    (hs : ¬ Started argc addr_arg w) :
    ∃ w', main argc addr_arg w buffer = some (255, w') ∧
      (w'.trace = w.trace ++ [.print .usage] ∨ w'.trace = w.trace ++ [.print .invalidAddress] ∨
        w'.trace = w.trace ++ [.print .openFailed] ∨
        w'.trace = w.trace ++ [.print .paramsFailed, .close]) := by
  unfold Started at hs
  by_cases h2 : argc < 2
  · exact ⟨w.print .usage, by simp [main, h2], Or.inl rfl⟩
  · by_cases h3 : 2 < argc
    · by_cases ha : 65535 < addr_arg ∨ addr_arg = 0
      · exact ⟨w.print .invalidAddress, by simp [main, h2, h3, ha], Or.inr (Or.inl rfl)⟩
      · by_cases ho : w.canOpen = true
        · by_cases hp : w.canSetParams = true
          · exact absurd ⟨by omega, fun _ => by omega, ho, hp⟩ hs
          · exact ⟨(w.print .paramsFailed).log .close, by simp [main, h2, h3, ha, ho, hp],
              Or.inr (Or.inr (Or.inr (by simp)))⟩
        · exact ⟨w.print .openFailed, by simp [main, h2, h3, ha, ho],
            Or.inr (Or.inr (Or.inl rfl))⟩
    · by_cases ho : w.canOpen = true
      · by_cases hp : w.canSetParams = true
        · exact absurd ⟨by omega, fun h => absurd h h3, ho, hp⟩ hs
        · exact ⟨(w.print .paramsFailed).log .close, by simp [main, h2, h3, ho, hp],
            Or.inr (Or.inr (Or.inr (by simp)))⟩
      · exact ⟨w.print .openFailed, by simp [main, h2, h3, ho], Or.inr (Or.inr (Or.inl rfl))⟩

/-- The trace after the first decode. -/
theorem awaitIdent_trace (w : World) (buffer : Packet) :
    (awaitIdent w buffer).2.1.trace =
      w.trace ++ (.print .waiting :: receiveEvents (w.print .waiting) buffer) := by
  have h := (receivePkt_world (w.print .waiting) buffer).1
  simp only [awaitIdent, h, World.print_trace, List.append_assoc, List.singleton_append]

/-- The first decode leaves the room of the line alone. -/
theorem awaitIdent_txRoom (w : World) (buffer : Packet) :
    (awaitIdent w buffer).2.1.txRoom = w.txRoom := by
  have h := (receivePkt_world (w.print .waiting) buffer).2.2.1
  simpa [awaitIdent] using h

/-- The events of a run that gets as far as the wait for the identification frame, in
order. `w2` and `cmd` are the world and the buffer at the second decode; the bytes on the
line at that point are those the first decode left. -/
theorem events_started (argc addr_arg : Nat) (w : World) (buffer : Packet)
    (hs : Started argc addr_arg w) :
    ∃ (w2 : World) (cmd : Packet), w2.rx = (awaitIdent w buffer).2.1.rx ∧
      events argc addr_arg w buffer =
        .print .waiting :: receiveEvents (w.print .waiting) buffer ++
          (if (awaitIdent w buffer).1 = -1 then [.close]
          else .print (.found (awaitIdent w buffer).2.2.device_addr) ::
            (if 2 < argc then
              [.print (.setting addr_arg), .write (writeCommand addr_arg) (writeReturn w 10)] ++
              (if writeReturn w 10 = -1 then [.print .sendError]
              else if writeReturn w 10 < 10 then [.print (.sendShort (writeReturn w 10) 10)]
              else .print .sent :: receiveEvents w2 cmd ++
                (if (receivePkt w2 cmd).1 ≠ -1 then
                  [.print (if (receivePkt w2 cmd).2.2.function ≠ FUNCTION_WRITE then
                      .unexpectedReply (receivePkt w2 cmd).2.2.function
                    else if (receivePkt w2 cmd).2.2.device_addr ≠ addr_arg then
                      .notAccepted (receivePkt w2 cmd).2.2.device_addr
                    else .allDone)]
                else []))
            else []) ++ [.close]) := by
  have hI := awaitIdent_trace w buffer
  obtain ⟨cmd, -, hsa⟩ := setAddress_eq
    ((awaitIdent w buffer).2.1.print (.found (awaitIdent w buffer).2.2.device_addr))
    (awaitIdent w buffer).2.2 addr_arg
  have hwr : writeReturn ((awaitIdent w buffer).2.1.print
      (.found (awaitIdent w buffer).2.2.device_addr)) 10 = writeReturn w 10 :=
    writeReturn_congr _ _ _ (by simp [awaitIdent_txRoom])
  rw [hwr] at hsa
  refine ⟨((((awaitIdent w buffer).2.1.print (.found (awaitIdent w buffer).2.2.device_addr)).print
    (.setting addr_arg)).log (.write (writeCommand addr_arg) (writeReturn w 10))).print .sent,
    cmd, by simp, ?_⟩
  have hC := (receivePkt_world (((((awaitIdent w buffer).2.1.print
    (.found (awaitIdent w buffer).2.2.device_addr)).print
    (.setting addr_arg)).log (.write (writeCommand addr_arg) (writeReturn w 10))).print .sent)
    cmd).1
  unfold events
  rw [main_started argc addr_arg w buffer hs]
  by_cases h1 : (awaitIdent w buffer).1 = -1
  · simp [h1, hI]
  · by_cases h3 : 2 < argc
    · rw [if_neg h1, if_pos h3, hsa]
      by_cases h4 : writeReturn w 10 = -1
      · simp [h1, h3, h4, hI]
      · by_cases h5 : writeReturn w 10 < 10
        · simp [h1, h3, h4, h5, hI]
        · rw [if_neg h4, if_neg h5, if_neg h1, if_pos h3, if_neg h4, if_neg h5]
          by_cases h6 : (receivePkt (((((awaitIdent w buffer).2.1.print
              (.found (awaitIdent w buffer).2.2.device_addr)).print (.setting addr_arg)).log
              (.write (writeCommand addr_arg) (writeReturn w 10))).print .sent) cmd).1 = -1
          · simp [h6, hC, hI]
          · by_cases h7 : (receivePkt (((((awaitIdent w buffer).2.1.print
                (.found (awaitIdent w buffer).2.2.device_addr)).print (.setting addr_arg)).log
                (.write (writeCommand addr_arg) (writeReturn w 10))).print .sent)
                cmd).2.2.function = FUNCTION_WRITE
            · by_cases h8 : (receivePkt (((((awaitIdent w buffer).2.1.print
                  (.found (awaitIdent w buffer).2.2.device_addr)).print (.setting addr_arg)).log
                  (.write (writeCommand addr_arg) (writeReturn w 10))).print .sent)
                  cmd).2.2.device_addr = addr_arg
              · simp [h6, h7, h8, hC, hI]
              · simp [h6, h7, h8, hC, hI]
            · simp [h6, h7, hC, hI]
    · simp [h1, h3, hI]

/-- The part of `main` that sets the address always has a defined result. -/
theorem setAddress_isSome (w : World) (buffer : Packet) (t : Nat) :
    ∃ w', setAddress w buffer t = some w' := by
  obtain ⟨cmd, -, h⟩ := setAddress_eq w buffer t
  rw [h]
  split_ifs <;> exact ⟨_, rfl⟩

/-- The exit status of a run that gets as far as the wait for the identification frame:
`255` if the first decode fails, `0` in every other case. -/
theorem exitStatus_started (argc addr_arg : Nat) (w : World) (buffer : Packet)
    (hs : Started argc addr_arg w) :
    exitStatus argc addr_arg w buffer =
      some (if (awaitIdent w buffer).1 = -1 then 255 else 0) := by
  unfold exitStatus
  rw [main_started argc addr_arg w buffer hs]
  by_cases h1 : (awaitIdent w buffer).1 = -1
  · simp [h1]
  · by_cases h3 : 2 < argc
    · obtain ⟨w', hw'⟩ := setAddress_isSome
        ((awaitIdent w buffer).2.1.print (.found (awaitIdent w buffer).2.2.device_addr))
        (awaitIdent w buffer).2.2 addr_arg
      simp [h1, h3, hw']
    · simp [h1, h3]

/-- The calls of `write` in a run that gets as far as the wait for the identification
frame: one, with the write command, when the first decode succeeds and an address was given;
none otherwise. -/
theorem writes_events_started (argc addr_arg : Nat) (w : World) (buffer : Packet)
    (hs : Started argc addr_arg w) :
    writes (events argc addr_arg w buffer) =
      if (awaitIdent w buffer).1 = -1 then []
      else if 2 < argc then [.write (writeCommand addr_arg) (writeReturn w 10)]
      else [] := by
  obtain ⟨w2, cmd, -, he⟩ := events_started argc addr_arg w buffer hs
  have hw1 : List.filter Event.isWrite (receiveEvents (w.print .waiting) buffer) = [] :=
    (receivePkt_world (w.print .waiting) buffer).2.1
  have hw2 : List.filter Event.isWrite (receiveEvents w2 cmd) = [] :=
    (receivePkt_world w2 cmd).2.1
  rw [he]
  by_cases h1 : (awaitIdent w buffer).1 = -1
  · simp [writes, h1, hw1, Event.isWrite]
  · by_cases h3 : 2 < argc
    · by_cases h4 : writeReturn w 10 = -1
      · simp [writes, h1, h3, h4, hw1, Event.isWrite, List.filter_cons]
      · by_cases h5 : writeReturn w 10 < 10
        · simp [writes, h1, h3, h4, h5, hw1, Event.isWrite, List.filter_cons]
        · by_cases h6 : (receivePkt w2 cmd).1 = -1
          · simp [writes, h1, h3, h4, h5, h6, hw1, hw2, Event.isWrite, List.filter_cons]
          · simp [writes, h1, h3, h4, h5, h6, hw1, hw2, Event.isWrite, List.filter_cons]
    · simp [writes, h1, h3, hw1, Event.isWrite, List.filter_cons]

/-! ## The handshake -/

/-- C4: in a run with target address `t` in `1..65535` whose first decode succeeds, the one
call of `write` is handed exactly the ten bytes
`[0x55, 0, 0, 2, 0, 2, t mod 256, t div 256, c mod 256, c div 256]`, where `c` is `crc16` of
the first eight of them: function `WRITE`, broadcast address, `data_addr` 0, the payload
`[2, low byte, high byte]` and the checksum low byte first. -/
theorem write_command_on_wire (argc t : Nat) (w : World) (buffer : Packet)
    (hs : Started argc t w) (ht : 2 < argc) (hok : (awaitIdent w buffer).1 = 0) :
    ∃ (bytes : List Byte) (r : Int),
      writes (events argc t w buffer) = [.write bytes r] ∧
      bytes.map Fin.val =
        [0x55, 0x00, 0x00, 0x02, 0x00, 0x02, t % 256, t / 256,
          crc16 (bytes.take 8) 8 % 256, crc16 (bytes.take 8) 8 / 256] := by
  have h1 : ¬ (awaitIdent w buffer).1 = -1 := by rw [hok]; decide
  have htr : 1 ≤ t ∧ t ≤ 0xFFFF := hs.2.1 ht
  refine ⟨writeCommand t, writeReturn w 10, ?_, ?_⟩
  · rw [writes_events_started argc t w buffer hs, if_neg h1, if_pos ht]
  · have hc := crc16_lt [0x55, 0x00, 0x00, 0x02, 0x00, 0x02, toByte (t % 256), toByte (t / 256)] 8
    have e1 : t % 256 % 256 = t % 256 := Nat.mod_mod _ _
    have e2 : t / 256 % 256 = t / 256 := Nat.mod_eq_of_lt (by omega)
    have e3 : crc16 [0x55, 0x00, 0x00, 0x02, 0x00, 0x02, toByte (t % 256), toByte (t / 256)] 8
        / 256 % 256 =
        crc16 [0x55, 0x00, 0x00, 0x02, 0x00, 0x02, toByte (t % 256), toByte (t / 256)] 8 / 256 :=
      Nat.mod_eq_of_lt (by omega)
    simp [writeCommand, toByte_val, e1, e2, e3]
    rfl

set_option maxRecDepth 100000 in
/-- Witness for `write_command_on_wire`: target `0x2000` after the identification frame of
the device at `0x1234`. -/
theorem write_command_on_wire_witness :
    ∃ (bytes : List Byte) (r : Int),
      writes (events 3 0x2000 (World.line identFrame) Packet.zero) = [.write bytes r] ∧
      bytes.map Fin.val =
        [0x55, 0x00, 0x00, 0x02, 0x00, 0x02, 0x2000 % 256, 0x2000 / 256,
          crc16 (bytes.take 8) 8 % 256, crc16 (bytes.take 8) 8 / 256] :=
  write_command_on_wire 3 0x2000 (World.line identFrame) Packet.zero (by decide) (by decide)
    (by decide)

/-- C7: when the first 7 bytes on the line form a valid `REQUEST` frame for the address `a`
(function byte 4, bytes 1..2 holding `a` low byte first, which makes `a` a 16-bit value,
bytes 5..6 holding `crc16` of bytes 0..4 low byte first), the first decode of the run
returns `0`, the buffer's `device_addr` is `a`, and the run reports `a` as the device
address found. -/
theorem ident_discovers_address (argc addr_arg a : Nat) (w : World) (buffer : Packet)
    (hs : Started argc addr_arg w) (h7 : 7 ≤ w.rx.length)
    (hf : byteAt w.rx 3 = FUNCTION_REQUEST)
    (hlo : byteAt w.rx 1 = a % 256) (hhi : byteAt w.rx 2 = a / 256)
    (hc : le16 w.rx 5 = crc16 w.rx 5) :
    (awaitIdent w buffer).1 = 0 ∧ (awaitIdent w buffer).2.2.device_addr = a ∧
      .print (.found a) ∈ events argc addr_arg w buffer := by
  have hok : (awaitIdent w buffer).1 = 0 :=
    (receivePkt_zero_iff (w.print .waiting) buffer).mpr (Or.inl ⟨h7, hf, hc⟩)
  have hfl := (receivePkt_fields (w.print .waiting) buffer hok).1
  have hda : (awaitIdent w buffer).2.2.device_addr = a := by
    simp only [awaitIdent, hfl, le16, World.print_rx, hlo, hhi]
    omega
  refine ⟨hok, hda, ?_⟩
  obtain ⟨w2, cmd, -, he⟩ := events_started argc addr_arg w buffer hs
  have h1 : ¬ (awaitIdent w buffer).1 = -1 := by rw [hok]; decide
  rw [he, if_neg h1, hda]
  simp

set_option maxRecDepth 100000 in
/-- Witness for `ident_discovers_address`: the identification frame of the device at
`0x1234`, no new address asked for. -/
theorem ident_discovers_address_witness :
    (awaitIdent (World.line identFrame) Packet.zero).1 = 0 ∧
      (awaitIdent (World.line identFrame) Packet.zero).2.2.device_addr = 0x1234 ∧
      .print (.found 0x1234) ∈ events 2 0 (World.line identFrame) Packet.zero :=
  ident_discovers_address 2 0 0x1234 (World.line identFrame) Packet.zero (by decide) (by decide)
    (by decide) (by decide) (by decide) (by decide)

/-- C8: when the first decode of a run fails, for whatever reason and whether or not a new
address was given, the run exits with status `255`; its events are the waiting message, the
events of the failed decode and the `close`, so nothing is read after the failure, and no
`write` is ever called. -/
theorem ident_failure_terminal (argc addr_arg : Nat) (w : World) (buffer : Packet)
    (hs : Started argc addr_arg w) (hfail : (awaitIdent w buffer).1 ≠ 0) :
    exitStatus argc addr_arg w buffer = some 255 ∧
      events argc addr_arg w buffer =
        .print .waiting :: receiveEvents (w.print .waiting) buffer ++ [.close] ∧
      writes (events argc addr_arg w buffer) = [] ∧
      reads (events argc addr_arg w buffer) =
        reads (receiveEvents (w.print .waiting) buffer) := by
  have h1 : (awaitIdent w buffer).1 = -1 := by
    rcases receivePkt_ret (w.print .waiting) buffer with h | h
    · exact absurd h hfail
    · exact h
  obtain ⟨w2, cmd, -, he⟩ := events_started argc addr_arg w buffer hs
  rw [if_pos h1] at he
  refine ⟨?_, he, ?_, ?_⟩
  · rw [exitStatus_started argc addr_arg w buffer hs, if_pos h1]
  · rw [writes_events_started argc addr_arg w buffer hs, if_pos h1]
  · rw [he]
    simp [reads, Event.isRead, List.filter_cons]

set_option maxRecDepth 100000 in
/-- Witness for `ident_failure_terminal`: the line delivers four bytes and closes, and a
new address was asked for. -/
theorem ident_failure_terminal_witness :
    exitStatus 3 0x2000 (World.line [0x55, 0x34, 0x12, 4]) Packet.zero = some 255 ∧
      events 3 0x2000 (World.line [0x55, 0x34, 0x12, 4]) Packet.zero =
        .print .waiting ::
          receiveEvents ((World.line [0x55, 0x34, 0x12, 4]).print .waiting) Packet.zero ++
          [.close] ∧
      writes (events 3 0x2000 (World.line [0x55, 0x34, 0x12, 4]) Packet.zero) = [] ∧
      reads (events 3 0x2000 (World.line [0x55, 0x34, 0x12, 4]) Packet.zero) =
        reads (receiveEvents ((World.line [0x55, 0x34, 0x12, 4]).print .waiting) Packet.zero) :=
  ident_failure_terminal 3 0x2000 (World.line [0x55, 0x34, 0x12, 4]) Packet.zero (by decide)
    (by decide)

set_option maxRecDepth 100000 in
/-- The three ways the first decode fails, run on sample lines with a new address asked
for: four bytes and then nothing, a `CONTROL` frame, and an identification frame with a
wrong checksum byte. Each run exits with `255` right after the failure message. -/
theorem ident_failure_runs :
    main 3 0x2000 (World.line [0x55, 0x34, 0x12, 4]) Packet.zero =
      some (255, { World.line [] with trace :=
        [.print .waiting, .read 7 4, .print (.malformed 4 7), .close] }) ∧
    main 3 0x2000 (World.line controlFrame) Packet.zero =
      some (255, { World.line [] with trace :=
        [.print .waiting, .read 7 7, .print (.unexpectedFunction 3), .close] }) ∧
    main 3 0x2000 (World.line [0x55, 0x34, 0x12, 4, 0, 132, 250]) Packet.zero =
      some (255, { World.line [] with trace :=
        [.print .waiting, .read 7 7, .print (.crcMismatch 64132 63876), .close] }) := by
  decide

theorem messages_append (l r : List Event) : messages (l ++ r) = messages l ++ messages r := by
  induction l with
  | nil => rfl
  | cons e l ih => cases e <;> simp [messages, ih]

/-- The last message of a trace that ends with a message and a `close`. -/
theorem messages_getLast (l : List Event) (m : Msg) :
    (messages (l ++ [.print m, .close])).getLast? = some m := by
  rw [messages_append]
  simp [messages]

/-- C6: in a run with target address `t` whose first decode succeeds and whose command is
written in full, if the confirmation frame on the line is one `receivePkt` decodes
successfully, the last message of the run is: the unexpected-function reply with the
received function if the frame's function (byte 3) is not `WRITE`; otherwise the
address-not-accepted message with the frame's `device_addr` (bytes 1..2) if that differs
from `t`; otherwise the all-done message. So the run reports all done exactly when the
function is `WRITE` and `device_addr` is `t`. -/
theorem confirmation_classified (argc t : Nat) (w : World) (buffer : Packet)
    (hs : Started argc t w) (ht : 2 < argc) (hid : (awaitIdent w buffer).1 = 0)
    (hwr : writeReturn w 10 = 10)
    (hconf : (receivePkt (awaitIdent w buffer).2.1 (awaitIdent w buffer).2.2).1 = 0) :
    (messages (events argc t w buffer)).getLast? =
      some (if byteAt (awaitIdent w buffer).2.1.rx 3 ≠ FUNCTION_WRITE then
          .unexpectedReply (byteAt (awaitIdent w buffer).2.1.rx 3)
        else if le16 (awaitIdent w buffer).2.1.rx 1 ≠ t then
          .notAccepted (le16 (awaitIdent w buffer).2.1.rx 1)
        else .allDone) ∧
    ((messages (events argc t w buffer)).getLast? = some .allDone ↔
      byteAt (awaitIdent w buffer).2.1.rx 3 = FUNCTION_WRITE ∧
        le16 (awaitIdent w buffer).2.1.rx 1 = t) := by
  obtain ⟨w2, cmd, hrx, he⟩ := events_started argc t w buffer hs
  have h1 : ¬ (awaitIdent w buffer).1 = -1 := by rw [hid]; decide
  have h4 : ¬ writeReturn w 10 = -1 := by rw [hwr]; decide
  have h5 : ¬ writeReturn w 10 < 10 := by rw [hwr]; decide
  have hc2 : (receivePkt w2 cmd).1 = 0 := by
    rw [receivePkt_ret_congr w2 (awaitIdent w buffer).2.1 cmd (awaitIdent w buffer).2.2 hrx]
    exact hconf
  have h6 : (receivePkt w2 cmd).1 ≠ -1 := by rw [hc2]; decide
  obtain ⟨hda, hfn, -⟩ := receivePkt_fields w2 cmd hc2
  rw [hrx] at hda hfn
  have hlast : (messages (events argc t w buffer)).getLast? =
      some (if byteAt (awaitIdent w buffer).2.1.rx 3 ≠ FUNCTION_WRITE then
          .unexpectedReply (byteAt (awaitIdent w buffer).2.1.rx 3)
        else if le16 (awaitIdent w buffer).2.1.rx 1 ≠ t then
          .notAccepted (le16 (awaitIdent w buffer).2.1.rx 1)
        else .allDone) := by
    rw [he, if_neg h1, if_pos ht, if_neg h4, if_neg h5, if_pos h6, hda, hfn]
    have hl := messages_getLast (.print .waiting :: receiveEvents (w.print .waiting) buffer ++
      (.print (.found (awaitIdent w buffer).2.2.device_addr) ::
        ([.print (.setting t), .write (writeCommand t) (writeReturn w 10)] ++
          (.print .sent :: receiveEvents w2 cmd))))
      (if byteAt (awaitIdent w buffer).2.1.rx 3 ≠ FUNCTION_WRITE then
          .unexpectedReply (byteAt (awaitIdent w buffer).2.1.rx 3)
        else if le16 (awaitIdent w buffer).2.1.rx 1 ≠ t then
          .notAccepted (le16 (awaitIdent w buffer).2.1.rx 1)
        else .allDone)
    simpa using hl
  refine ⟨hlast, ?_⟩
  rw [hlast]
  by_cases hf : byteAt (awaitIdent w buffer).2.1.rx 3 = FUNCTION_WRITE
  · by_cases hd : le16 (awaitIdent w buffer).2.1.rx 1 = t
    · simp [hf, hd]
    · simp [hf, hd]
  · simp [hf]

set_option maxRecDepth 100000 in
/-- Witness for `confirmation_classified`, the two sample runs with target `0x2000`: a
`WRITE` confirmation from address `0x2000` ends with the all-done message, one from address
`0x1234` with the address-not-accepted message for `0x1234`. -/
theorem confirmation_classified_witness :
    (messages (events 3 0x2000 (World.line (identFrame ++ confirmFrame2000))
      Packet.zero)).getLast? = some .allDone ∧
    (messages (events 3 0x2000 (World.line (identFrame ++ confirmFrame1234))
      Packet.zero)).getLast? = some (.notAccepted 0x1234) :=
  ⟨(confirmation_classified 3 0x2000 (World.line (identFrame ++ confirmFrame2000)) Packet.zero
      (by decide) (by decide) (by decide) (by decide) (by decide)).2.mpr (by decide),
    (confirmation_classified 3 0x2000 (World.line (identFrame ++ confirmFrame1234)) Packet.zero
      (by decide) (by decide) (by decide) (by decide) (by decide)).1.trans (by decide)⟩

/-! ## Sequencing -/

theorem writeReturn_cases (w : World) (n : Nat) :
    writeReturn w n = -1 ∨ (0 ≤ writeReturn w n ∧ writeReturn w n ≤ n) := by
  unfold writeReturn
  cases w.txRoom with
  | none => exact Or.inl rfl
  | some k =>
    refine Or.inr ⟨?_, ?_⟩
    · show (0 : Int) ≤ min (k : Int) (n : Int)
      exact le_min (Int.ofNat_nonneg k) (Int.ofNat_nonneg n)
    · show min (k : Int) (n : Int) ≤ (n : Int)
      exact min_le_right _ _

theorem dropWhile_no_write (l r : List Event) (h : writes l = []) :
    (l ++ r).dropWhile (fun e => !e.isWrite) = r.dropWhile (fun e => !e.isWrite) := by
  induction l with
  | nil => rfl
  | cons e l ih =>
    cases he : e.isWrite with
    | true => simp [writes, List.filter_cons, he] at h
    | false =>
      have hl : writes l = [] := by simpa [writes, List.filter_cons, he] using h
      simp [List.dropWhile_cons, he, ih hl]

/-- What follows the first `write` when only the events before it are free of writes. -/
theorem afterWrite_split (l post : List Event) (bytes : List Byte) (r : Int)
    (h : writes l = []) : afterWrite (l ++ .write bytes r :: post) = post := by
  unfold afterWrite
  rw [dropWhile_no_write l _ h]
  simp [List.dropWhile_cons, Event.isWrite]

/-- Nothing follows the first `write` in a trace without one. -/
theorem afterWrite_none (l : List Event) (h : writes l = []) : afterWrite l = [] := by
  unfold afterWrite
  have := dropWhile_no_write l [] h
  simp only [List.append_nil] at this
  rw [this]
  rfl

theorem length_writeCommand (t : Nat) : (writeCommand t).length = 10 := rfl

theorem mem_writes (e : Event) (l : List Event) : e ∈ writes l ↔ e ∈ l ∧ e.isWrite = true := by
  simp [writes, List.mem_filter]

/-- A run that does not get as far as the wait for the identification frame neither reads
nor writes. -/
theorem events_not_started (argc addr_arg : Nat) (w : World) (buffer : Packet)
    (hs : ¬ Started argc addr_arg w) :
    writes (events argc addr_arg w buffer) = [] ∧ reads (events argc addr_arg w buffer) = [] := by
  obtain ⟨w', hm, htr⟩ := main_not_started argc addr_arg w buffer hs
  unfold events
  rw [hm]
  rcases htr with h | h | h | h <;>
    simp [h, writes, reads, Event.isWrite, Event.isRead, List.filter_cons]

/-- The events of a run that writes its command: those up to the `write`, free of writes,
the `write`, and those after it, which contain a `read` exactly when the `write` took all
ten bytes. -/
theorem events_around_write (argc addr_arg : Nat) (w : World) (buffer : Packet)
    (hs : Started argc addr_arg w) (h3 : 2 < argc) (h1 : ¬ (awaitIdent w buffer).1 = -1) :
    ∃ pre post, writes pre = [] ∧
      events argc addr_arg w buffer =
        pre ++ .write (writeCommand addr_arg) (writeReturn w 10) :: post ∧
      (reads post ≠ [] ↔ writeReturn w 10 = 10) := by
  obtain ⟨w2, cmd, -, he⟩ := events_started argc addr_arg w buffer hs
  have hw1 : List.filter Event.isWrite (receiveEvents (w.print .waiting) buffer) = [] :=
    (receivePkt_world (w.print .waiting) buffer).2.1
  obtain ⟨r2, rest2, hr2⟩ := receiveEvents_head w2 cmd
  refine ⟨.print .waiting :: receiveEvents (w.print .waiting) buffer ++
      [.print (.found (awaitIdent w buffer).2.2.device_addr), .print (.setting addr_arg)],
    (if writeReturn w 10 = -1 then [.print .sendError]
      else if writeReturn w 10 < 10 then [.print (.sendShort (writeReturn w 10) 10)]
      else .print .sent :: receiveEvents w2 cmd ++
        (if (receivePkt w2 cmd).1 ≠ -1 then
          [.print (if (receivePkt w2 cmd).2.2.function ≠ FUNCTION_WRITE then
              .unexpectedReply (receivePkt w2 cmd).2.2.function
            else if (receivePkt w2 cmd).2.2.device_addr ≠ addr_arg then
              .notAccepted (receivePkt w2 cmd).2.2.device_addr
            else .allDone)]
        else [])) ++ [.close], ?_, ?_, ?_⟩
  · simp [writes, hw1, Event.isWrite, List.filter_cons]
  · rw [he, if_neg h1, if_pos h3]
    simp
  · by_cases h4 : writeReturn w 10 = -1
    · have hne : ¬ writeReturn w 10 = 10 := by rw [h4]; decide
      simp [h4, reads, Event.isRead, List.filter_cons]
    · by_cases h5 : writeReturn w 10 < 10
      · have hne : ¬ writeReturn w 10 = 10 := by omega
        simp [h4, h5, hne, reads, Event.isRead, List.filter_cons]
      · have heq : writeReturn w 10 = 10 := by
          rcases writeReturn_cases w 10 with h | ⟨-, h⟩
          · exact absurd h h4
          · have : writeReturn w 10 ≤ 10 := by exact_mod_cast h
            omega
        have h4' : ¬ (10 : Int) = -1 := by decide
        simp [heq, h4', hr2, reads, Event.isRead, List.filter_cons]

/-- C9: in every run at most one `write` is called, and one is called if and only if the
run reaches the first decode with a new address given and that decode succeeds. A `read`
follows the `write` (the confirmation decode is attempted) if and only if the `write` took
all ten bytes of the command. A run without a new address consists of the waiting message,
the first decode and, when that succeeds, the address found, then the `close`. -/
theorem handshake_sequencing (argc addr_arg : Nat) (w : World) (buffer : Packet) :
    (writes (events argc addr_arg w buffer)).length ≤ 1 ∧
    (writes (events argc addr_arg w buffer) ≠ [] ↔
      Started argc addr_arg w ∧ 2 < argc ∧ (awaitIdent w buffer).1 = 0) ∧
    (reads (afterWrite (events argc addr_arg w buffer)) ≠ [] ↔
      ∃ bytes : List Byte, bytes.length = 10 ∧
        Event.write bytes 10 ∈ events argc addr_arg w buffer) ∧
    (Started argc addr_arg w → ¬ 2 < argc →
      events argc addr_arg w buffer =
        .print .waiting :: receiveEvents (w.print .waiting) buffer ++
          (if (awaitIdent w buffer).1 = -1 then [.close]
          else [.print (.found (awaitIdent w buffer).2.2.device_addr), .close])) := by
  have key : ∀ l : List Event, writes l = [] →
      (reads (afterWrite l) ≠ [] ↔ ∃ bytes : List Byte, bytes.length = 10 ∧
        Event.write bytes 10 ∈ l) := by
    intro l hl
    rw [afterWrite_none l hl]
    constructor
    · intro h; exact absurd rfl h
    · rintro ⟨bytes, -, hmem⟩
      have : Event.write bytes 10 ∈ writes l := (mem_writes _ _).mpr ⟨hmem, rfl⟩
      rw [hl] at this
      cases this
  by_cases hs : Started argc addr_arg w
  · have hw := writes_events_started argc addr_arg w buffer hs
    by_cases h1 : (awaitIdent w buffer).1 = -1
    · have h0 : ¬ (awaitIdent w buffer).1 = 0 := by rw [h1]; decide
      rw [if_pos h1] at hw
      refine ⟨by rw [hw]; simp, by simp [hw, h0], key _ hw, ?_⟩
      intro _ h3
      obtain ⟨w2, cmd, -, he⟩ := events_started argc addr_arg w buffer hs
      rw [he, if_pos h1, if_pos h1]
    · have h0 : (awaitIdent w buffer).1 = 0 := by
        rcases receivePkt_ret (w.print .waiting) buffer with h | h
        · exact h
        · exact absurd h h1
      by_cases h3 : 2 < argc
      · rw [if_neg h1, if_pos h3] at hw
        obtain ⟨pre, post, hpre, he, hpost⟩ := events_around_write argc addr_arg w buffer hs h3 h1
        refine ⟨by rw [hw]; simp, by simp [hw, hs, h3, h0], ?_, fun _ h => absurd h3 h⟩
        rw [he, afterWrite_split pre post _ _ hpre, hpost, ← he]
        constructor
        · intro h10
          refine ⟨writeCommand addr_arg, length_writeCommand addr_arg, ?_⟩
          rw [he, h10]
          simp
        · rintro ⟨bytes, -, hmem⟩
          have hm : Event.write bytes 10 ∈ writes (events argc addr_arg w buffer) :=
            (mem_writes _ _).mpr ⟨hmem, rfl⟩
          rw [hw] at hm
          simp only [List.mem_singleton, Event.write.injEq] at hm
          exact hm.2.symm
      · rw [if_neg h1, if_neg h3] at hw
        refine ⟨by rw [hw]; simp, by simp [hw, h3], key _ hw, ?_⟩
        intro _ _
        obtain ⟨w2, cmd, -, he⟩ := events_started argc addr_arg w buffer hs
        rw [he, if_neg h1, if_neg h1, if_neg h3]
        simp
  · obtain ⟨hw, -⟩ := events_not_started argc addr_arg w buffer hs
    exact ⟨by rw [hw]; simp, by simp [hw, hs], key _ hw, fun h => absurd h hs⟩

/-! ## The layout of an encoded frame -/

theorem crc_tail (c : Nat) (hc : c < 65536) :
    (toByte c).val = c % 256 ∧ (toByte (c >>> 8)).val = c / 256 := by
  refine ⟨rfl, ?_⟩
  rw [toByte_shift, toByte_val]
  omega

theorem encode_layout0 (w : World) (buffer : Packet) : EncodeLayout w buffer 0 := by
  obtain ⟨a0, a1, a2, a3, a4, a5, a6, a7, a8, a9, hm⟩ := buffer.exists_mem
  have hlt := crc16_lt [a0, a1, a2, a3, a4, a5, a6, a7, a8, a9] 5
  have hp := crc16_prefix5 a0 a1 a2 a3 a4
    [toByte (crc16 [a0, a1, a2, a3, a4, a5, a6, a7, a8, a9] 5),
      toByte (crc16 [a0, a1, a2, a3, a4, a5, a6, a7, a8, a9] 5 >>> 8)] [a5, a6, a7, a8, a9]
  obtain ⟨ht1, ht2⟩ := crc_tail _ hlt
  unfold EncodeLayout
  simp only [sendPkt, set_src, write, MIN_PKT_LENGTH, HEADER_LENGTH, Packet.set_data,
    Packet.poke, hm]
  by_cases h1 : writeReturn w 7 = -1
  · simp [h1, hp, ht1, ht2, writes, Event.isWrite, List.filter_cons]
  · by_cases h2 : writeReturn w 7 < 7 <;>
      simp [h1, h2, hp, ht1, ht2, writes, Event.isWrite, List.filter_cons]

theorem crc16_prefix7 (b0 b1 b2 b3 b4 b5 b6 : Byte) (t t' : List Byte) :
    crc16 (b0 :: b1 :: b2 :: b3 :: b4 :: b5 :: b6 :: t) 7 =
      crc16 (b0 :: b1 :: b2 :: b3 :: b4 :: b5 :: b6 :: t') 7 := by
  apply crc16_congr
  intro i hi
  interval_cases i <;> simp

theorem encode_layout1 (w : World) (buffer : Packet) : EncodeLayout w buffer 1 := by
  obtain ⟨a0, a1, a2, a3, a4, a5, a6, a7, a8, a9, hm⟩ := buffer.exists_mem
  have hlt := crc16_lt [a0, a1, a2, a3, a4, a5, a6, a7, a8, a9] 6
  have hp := crc16_prefix6 a0 a1 a2 a3 a4 a5
    [toByte (crc16 [a0, a1, a2, a3, a4, a5, a6, a7, a8, a9] 6),
      toByte (crc16 [a0, a1, a2, a3, a4, a5, a6, a7, a8, a9] 6 >>> 8)] [a6, a7, a8, a9]
  obtain ⟨ht1, ht2⟩ := crc_tail _ hlt
  unfold EncodeLayout
  simp only [sendPkt, set_src, write, MIN_PKT_LENGTH, HEADER_LENGTH, Packet.set_data,
    Packet.poke, hm]
  by_cases h1 : writeReturn w 8 = -1
  · simp [h1, hp, ht1, ht2, writes, Event.isWrite, List.filter_cons]
  · by_cases h2 : writeReturn w 8 < 8 <;>
      simp [h1, h2, hp, ht1, ht2, writes, Event.isWrite, List.filter_cons]

theorem encode_layout2 (w : World) (buffer : Packet) : EncodeLayout w buffer 2 := by
  obtain ⟨a0, a1, a2, a3, a4, a5, a6, a7, a8, a9, hm⟩ := buffer.exists_mem
  have hlt := crc16_lt [a0, a1, a2, a3, a4, a5, a6, a7, a8, a9] 7
  have hp := crc16_prefix7 a0 a1 a2 a3 a4 a5 a6
    [toByte (crc16 [a0, a1, a2, a3, a4, a5, a6, a7, a8, a9] 7),
      toByte (crc16 [a0, a1, a2, a3, a4, a5, a6, a7, a8, a9] 7 >>> 8)] [a7, a8, a9]
  obtain ⟨ht1, ht2⟩ := crc_tail _ hlt
  unfold EncodeLayout
  simp only [sendPkt, set_src, write, MIN_PKT_LENGTH, HEADER_LENGTH, Packet.set_data,
    Packet.poke, hm]
  by_cases h1 : writeReturn w 9 = -1
  · simp [h1, hp, ht1, ht2, writes, Event.isWrite, List.filter_cons]
  · by_cases h2 : writeReturn w 9 < 9 <;>
      simp [h1, h2, hp, ht1, ht2, writes, Event.isWrite, List.filter_cons]

theorem encode_layout3 (w : World) (buffer : Packet) : EncodeLayout w buffer 3 := by
  obtain ⟨a0, a1, a2, a3, a4, a5, a6, a7, a8, a9, hm⟩ := buffer.exists_mem
  have hlt := crc16_lt [a0, a1, a2, a3, a4, a5, a6, a7, a8, a9] 8
  have hp := crc16_prefix8 a0 a1 a2 a3 a4 a5 a6 a7
    [toByte (crc16 [a0, a1, a2, a3, a4, a5, a6, a7, a8, a9] 8),
      toByte (crc16 [a0, a1, a2, a3, a4, a5, a6, a7, a8, a9] 8 >>> 8)] [a8, a9]
  obtain ⟨ht1, ht2⟩ := crc_tail _ hlt
  unfold EncodeLayout
  simp only [sendPkt, set_src, write, MIN_PKT_LENGTH, HEADER_LENGTH, Packet.set_data,
    Packet.poke, hm]
  by_cases h1 : writeReturn w 10 = -1
  · simp [h1, hp, ht1, ht2, writes, Event.isWrite, List.filter_cons]
  · by_cases h2 : writeReturn w 10 < 10 <;>
      simp [h1, h2, hp, ht1, ht2, writes, Event.isWrite, List.filter_cons]

/-- C5, as amended: for every payload length `n` in `0..3`, every line and every contents of
the buffer, `set_src`/`sendPkt` produce a frame of exactly `5 + n + 2` bytes: the 5 header
bytes and the `n` payload bytes unchanged, then `crc16` of those `5 + n` bytes, low byte
followed by high byte. The frame lies at the start of the ten-byte buffer, so both checksum
bytes are stored inside it, and the checksum is the last two bytes of the frame. -/
theorem encode_layout_upto3 (w : World) (buffer : Packet) (n : Nat) (hn : n ≤ 3) :
    EncodeLayout w buffer n := by
  interval_cases n
  · exact encode_layout0 w buffer
  · exact encode_layout1 w buffer
  · exact encode_layout2 w buffer
  · exact encode_layout3 w buffer

set_option maxRecDepth 100000 in
/-- Witness for `encode_layout_upto3`: the three-byte payload of the write command, in a buffer of
zeros. -/
theorem encode_layout_upto3_witness : EncodeLayout World.sink Packet.zero 3 :=
  encode_layout_upto3 World.sink Packet.zero 3 (by decide)

set_option maxRecDepth 100000 in
/-- C5 as stated fails for payload length 4: `set_src` would store the high checksum byte in
`data[5]`, one past the five elements of `data` and the ten bytes of the buffer, so there is
no frame of `5 + 4 + 2` bytes inside the buffer. -/
theorem encode_layout_fails_at_4 : ¬ EncodeLayout World.sink Packet.zero 4 := by
  decide

/-! ## The exit status -/

/-- For every buffer, `set_src` with a payload of four bytes leaves the buffer. -/
theorem set_src_four (buffer : Packet) : set_src buffer 4 = none := by
  simp [set_src]

set_option maxRecDepth 100000 in
/-- C10, the run on which code and claim part: a new address `0x2000` is given, the port
opens and is configured, the device at `0x1234` identifies itself, the command is written in
full, and then the line delivers nothing, so the second decode fails with a short read. The
run closes the port and exits with status `0`. -/
theorem exit_status_confirm_failure :
    main 3 0x2000 (World.line identFrame) Packet.zero =
      some (0, { World.line [] with trace :=
        [.print .waiting, .read 7 7, .print (.found 0x1234), .print (.setting 0x2000),
          .write [0x55, 0, 0, 2, 0, 2, 0x00, 0x20, 92, 208] 10, .print .sent,
          .read 7 0, .print (.malformed 0 7), .close] }) := by
  decide

set_option maxRecDepth 100000 in
/-- More runs that exit with status `0` after a failure past the identification: a
confirmation with a wrong checksum byte, and a `write` that takes only four bytes. -/
theorem exit_status_zero_runs :
    exitStatus 3 0x2000 (World.line (identFrame ++ [0x55, 0x00, 0x20, 2, 0, 2, 39, 222]))
      Packet.zero = some 0 ∧
    (messages (events 3 0x2000 (World.line (identFrame ++ [0x55, 0x00, 0x20, 2, 0, 2, 39, 222]))
      Packet.zero)).getLast? = some (.crcMismatch 56871 57127) ∧
    main 3 0x2000 { World.line (identFrame ++ confirmFrame2000) with txRoom := some 4 }
      Packet.zero =
      some (0, { World.line confirmFrame2000 with
        txRoom := some 4
        trace := [.print .waiting, .read 7 7, .print (.found 0x1234), .print (.setting 0x2000),
          .write [0x55, 0, 0, 2, 0, 2, 0x00, 0x20, 92, 208] 4, .print (.sendShort 4 10),
          .close] }) := by
  decide

set_option maxRecDepth 100000 in
/-- Sample runs that complete: without a new address; with a new address the device
accepts; with a reply whose function is `REQUEST`. -/
theorem completed_runs :
    main 2 0 (World.line identFrame) Packet.zero =
      some (0, { World.line [] with trace :=
        [.print .waiting, .read 7 7, .print (.found 0x1234), .close] }) ∧
    main 3 0x2000 (World.line (identFrame ++ confirmFrame2000 ++ [7])) Packet.zero =
      some (0, { World.line [7] with trace :=
        [.print .waiting, .read 7 7, .print (.found 0x1234), .print (.setting 0x2000),
          .write [0x55, 0, 0, 2, 0, 2, 0x00, 0x20, 92, 208] 10, .print .sent,
          .read 7 7, .read 1 1, .print .allDone, .close] }) ∧
    main 3 0x2000 (World.line (identFrame ++ requestFrame2000)) Packet.zero =
      some (0, { World.line [] with trace :=
        [.print .waiting, .read 7 7, .print (.found 0x1234), .print (.setting 0x2000),
          .write [0x55, 0, 0, 2, 0, 2, 0x00, 0x20, 92, 208] 10, .print .sent,
          .read 7 7, .print (.unexpectedReply 4), .close] }) := by
  decide

/-! ## The checksum, bit by bit -/

/-- The masking `& 0x7FFF` after the shift changes nothing on a 16-bit value. -/
theorem shift_mask (x : Nat) (hx : x < 65536) : (x >>> 1) &&& 0x7FFF = x >>> 1 := by
  have h : x >>> 1 < 2 ^ 15 := by
    rw [Nat.shiftRight_eq_div_pow]
    omega
  exact Nat.and_pow_two_sub_one_of_lt_two_pow h

/-- A round of `crc16` on an even 16-bit value halves it. -/
theorem crc16_round_even (x : Nat) (hx : x < 65536) (he : x % 2 = 0) :
    crc16_round x = x / 2 := by
  unfold crc16_round
  have h1 : x &&& 1 = 0 := by rw [Nat.and_one_is_mod]; exact he
  have h2 : x >>> 1 = x / 2 := by rw [Nat.shiftRight_eq_div_pow, Nat.pow_one]
  have hr : (x >>> 1) &&& 0x7FFF = x / 2 := by rw [shift_mask x hx, h2]
  simp only [h1, ne_eq, not_true_eq_false, ite_false, hr, Nat.xor_zero]
  exact Nat.mod_eq_of_lt (by omega)

/-- A round of `crc16` on an odd 16-bit value halves it and adds the polynomial. -/
theorem crc16_round_odd (x : Nat) (hx : x < 65536) (ho : x % 2 = 1) :
    crc16_round x = (x / 2) ^^^ 0xA001 := by
  unfold crc16_round
  have h1 : x &&& 1 = 1 := by rw [Nat.and_one_is_mod]; exact ho
  have h2 : x >>> 1 = x / 2 := by rw [Nat.shiftRight_eq_div_pow, Nat.pow_one]
  have hr : (x >>> 1) &&& 0x7FFF = x / 2 := by rw [shift_mask x hx, h2]
  have h3 : (x / 2) ^^^ 0xA001 < 2 ^ 16 :=
    Nat.xor_lt_two_pow (by omega) (by decide)
  simp only [h1, ne_eq, one_ne_zero, not_false_eq_true, ite_true, hr]
  exact Nat.mod_eq_of_lt h3

/-- Adding the polynomial to a 15-bit value sets bit 15. -/
theorem poly_high (a : Nat) (ha : a < 32768) : 32768 ≤ a ^^^ 0xA001 := by
  have ht : (a ^^^ 0xA001).testBit 15 = true := by
    rw [Nat.testBit_xor, Nat.testBit_lt_two_pow (show a < 2 ^ 15 from ha)]
    decide
  exact Nat.testBit_implies_ge ht

/-- A round of `crc16` can be undone on 16-bit values. -/
theorem crc16_unround_round (x : Nat) (hx : x < 65536) : crc16_unround (crc16_round x) = x := by
  rcases Nat.mod_two_eq_zero_or_one x with he | ho
  · rw [crc16_round_even x hx he]
    have : ¬ 32768 ≤ x / 2 := by omega
    simp only [crc16_unround, this, ite_false]
    omega
  · rw [crc16_round_odd x hx ho]
    have h := poly_high (x / 2) (by omega)
    simp only [crc16_unround, h, ite_true, Nat.xor_cancel_right]
    omega

/-- A round of `crc16` is injective on 16-bit values. -/
theorem crc16_round_inj (x y : Nat) (hx : x < 65536) (hy : y < 65536)
    (h : crc16_round x = crc16_round y) : x = y := by
  rw [← crc16_unround_round x hx, ← crc16_unround_round y hy, h]

theorem iterate_round_lt (k x : Nat) (hx : x < 65536) : crc16_round^[k] x < 65536 := by
  cases k with
  | zero => exact hx
  | succ k => rw [Function.iterate_succ_apply']; exact crc16_round_lt _

theorem iterate_round_inj (k x y : Nat) (hx : x < 65536) (hy : y < 65536)
    (h : crc16_round^[k] x = crc16_round^[k] y) : x = y := by
  induction k with
  | zero => exact h
  | succ k ih =>
    rw [Function.iterate_succ_apply', Function.iterate_succ_apply'] at h
    exact ih (crc16_round_inj _ _ (iterate_round_lt k x hx) (iterate_round_lt k y hy) h)

theorem xor_byte_lt (c : Nat) (b : Byte) (hc : c < 65536) : c ^^^ b.val < 65536 :=
  Nat.xor_lt_two_pow (n := 16) hc (by have := b.isLt; omega)

/-- One pass of `crc16` over a byte, as rounds on the value with the byte added. -/
theorem crc16_step_eq (c : Nat) (b : Byte) (hc : c < 65536) :
    crc16_step c b = crc16_round^[8] (c ^^^ b.val) := by
  unfold crc16_step
  rw [Nat.mod_eq_of_lt (xor_byte_lt c b hc)]

/-- Different states stay different over a pass with the same byte. -/
theorem crc16_step_inj_state (c c' : Nat) (b : Byte) (hc : c < 65536) (hc' : c' < 65536)
    (h : crc16_step c b = crc16_step c' b) : c = c' := by
  rw [crc16_step_eq c b hc, crc16_step_eq c' b hc'] at h
  have hx := iterate_round_inj 8 _ _ (xor_byte_lt c b hc) (xor_byte_lt c' b hc') h
  rw [← Nat.xor_cancel_right b.val c, hx, Nat.xor_cancel_right]

/-- Different bytes give different states over a pass from the same state. -/
theorem crc16_step_inj_byte (c : Nat) (b b' : Byte) (hc : c < 65536)
    (h : crc16_step c b = crc16_step c b') : b = b' := by
  rw [crc16_step_eq c b hc, crc16_step_eq c b' hc] at h
  have hx := iterate_round_inj 8 _ _ (xor_byte_lt c b hc) (xor_byte_lt c b' hc) h
  exact Fin.ext (Nat.xor_right_injective hx)

/-- Two buffers that differ in exactly one of their first `n` bytes have different
checksums over `n` bytes. -/
theorem crc16_ne_of_byte (l l' : List Byte) (n i : Nat) (hi : i < n)
    (hne : l.getD i 0 ≠ l'.getD i 0)
    (heq : ∀ j, j < n → j ≠ i → l.getD j 0 = l'.getD j 0) : crc16 l n ≠ crc16 l' n := by
  induction n with
  | zero => omega
  | succ n ih =>
    rw [crc16_succ, crc16_succ]
    rcases Nat.lt_or_ge i n with hlt | hge
    · have hst := ih hlt (fun j hj hji => heq j (Nat.lt_succ_of_lt hj) hji)
      rw [heq n (Nat.lt_succ_self n) (by omega)]
      exact fun h => hst (crc16_step_inj_state _ _ _ (crc16_lt l n) (crc16_lt l' n) h)
    · have hin : i = n := by omega
      subst hin
      rw [crc16_congr l l' i (fun j hj => heq j (Nat.lt_succ_of_lt hj) (by omega))]
      exact fun h => hne (crc16_step_inj_byte _ _ _ (crc16_lt l' i) h)

/-! ## Flipping one bit -/

theorem flipByte_ne (b : Byte) (j : Nat) : flipByte b j ≠ b := by
  intro h
  have hlt : b.val ^^^ 2 ^ (j % 8) < 2 ^ 8 :=
    Nat.xor_lt_two_pow b.isLt (Nat.pow_lt_pow_right (by decide) (Nat.mod_lt j (by decide)))
  have hv : (flipByte b j).val = b.val ^^^ 2 ^ (j % 8) := by
    simp only [flipByte, toByte_val]
    exact Nat.mod_eq_of_lt hlt
  rw [h] at hv
  have h0 : 2 ^ (j % 8) = 0 := by
    apply Nat.xor_right_injective (n := b.val)
    rw [Nat.xor_zero]
    exact hv.symm
  exact absurd h0 (by positivity)

theorem length_flipBit (l : List Byte) (k : Nat) : (flipBit l k).length = l.length := by
  simp [flipBit]

theorem getD_flipBit_ne (l : List Byte) (k j : Nat) (h : j ≠ k / 8) :
    (flipBit l k).getD j 0 = l.getD j 0 := by
  simp [flipBit, List.getD_eq_getElem?_getD, List.getElem?_set, Ne.symm h]

theorem getD_flipBit_self (l : List Byte) (k : Nat) (h : k / 8 < l.length) :
    (flipBit l k).getD (k / 8) 0 = flipByte (l.getD (k / 8) 0) k := by
  simp [flipBit, List.getD_eq_getElem?_getD, List.getElem?_set, h]

/-- C12: `crc16` detects every single-bit error. For every byte sequence and every bit
position within it, the sequence with that bit flipped, which is any sequence of the same
length differing in exactly that one bit, has a different `crc16` over the whole length. -/
theorem crc16_detects_single_bit (l : List Byte) (k : Nat) (hk : k < 8 * l.length) :
    (flipBit l k).length = l.length ∧ crc16 (flipBit l k) l.length ≠ crc16 l l.length := by
  have hi : k / 8 < l.length := by omega
  refine ⟨length_flipBit l k, ?_⟩
  apply crc16_ne_of_byte (flipBit l k) l l.length (k / 8) hi
  · rw [getD_flipBit_self l k hi]
    exact flipByte_ne _ _
  · intro j _ hj
    exact getD_flipBit_ne l k j hj

set_option maxRecDepth 100000 in
/-- Witness for `crc16_detects_single_bit`: bit 3 of the second byte of the identification
frame. -/
theorem crc16_detects_single_bit_witness :
    (flipBit identFrame 11).length = identFrame.length ∧
      crc16 (flipBit identFrame 11) identFrame.length ≠ crc16 identFrame identFrame.length :=
  crc16_detects_single_bit identFrame 11 (by decide)

/-! ## The reference checksum -/

/-- On a 16-bit value a round of `crc16` is a round of the reference. -/
theorem crc16_round_eq_ref (x : Nat) (hx : x < 65536) : crc16_round x = crc16_ref_round x := by
  have h2 : x >>> 1 = x / 2 := by rw [Nat.shiftRight_eq_div_pow, Nat.pow_one]
  rcases Nat.mod_two_eq_zero_or_one x with he | ho
  · rw [crc16_round_even x hx he]
    simp [crc16_ref_round, he, h2]
  · rw [crc16_round_odd x hx ho]
    simp [crc16_ref_round, ho, h2]

theorem iterate_round_eq_ref (k x : Nat) (hx : x < 65536) :
    crc16_round^[k] x = crc16_ref_round^[k] x := by
  induction k with
  | zero => rfl
  | succ k ih =>
    rw [Function.iterate_succ_apply', Function.iterate_succ_apply', ← ih]
    exact crc16_round_eq_ref _ (iterate_round_lt k x hx)

/-- On a 16-bit value a pass of `crc16` over a byte is a pass of the reference. -/
theorem crc16_step_eq_ref (c : Nat) (b : Byte) (hc : c < 65536) :
    crc16_step c b = crc16_ref_byte c b := by
  rw [crc16_step_eq c b hc]
  exact iterate_round_eq_ref 8 _ (xor_byte_lt c b hc)

/-- The checksum of the first `n` bytes of a buffer that has them is the reference CRC-16 of
those bytes. -/
theorem crc16_eq_ref_take (buffer : List Byte) (n : Nat) (hn : n ≤ buffer.length) :
    crc16 buffer n = crc16_ref (buffer.take n) := by
  induction n with
  | zero => simp [crc16_zero, crc16_ref]
  | succ n ih =>
    have hlt : n < buffer.length := hn
    rw [crc16_succ, ih (Nat.le_of_lt hlt), crc16_step_eq_ref _ _ (by rw [← ih (Nat.le_of_lt hlt)]; exact crc16_lt _ _)]
    have hg : buffer.getD n 0 = buffer[n] := by
      simp [List.getD_eq_getElem?_getD, List.getElem?_eq_getElem hlt]
    rw [hg, List.take_succ, List.getElem?_eq_getElem hlt]
    simp only [crc16_ref, List.foldl_append, Option.toList, List.foldl_cons, List.foldl_nil]


set_option maxRecDepth 100000 in
/-- C13: `crc16` computes the reference CRC-16 of the specification. Over the first `n`
bytes of a buffer it returns what the reference (start from `0xFFFF`; per byte, XOR into the
low 8 bits, then 8 times shift right and XOR `0xA001` if the low bit was 1) returns on
those bytes; the `& 0x7FFF` after the shift changes no bit of a 16-bit value; and on the
ASCII bytes of `123456789` both give `0x4B37`, the check value of the Modbus CRC16. -/
theorem crc16_refines_reference (buffer : List Byte) (n : Nat) (hn : n ≤ buffer.length) :
    crc16 buffer n = crc16_ref (buffer.take n) ∧
    (∀ crc : Nat, crc < 65536 → (crc >>> 1) &&& 0x7FFF = crc >>> 1) ∧
    crc16 checkDigits 9 = 0x4B37 ∧ crc16_ref checkDigits = 0x4B37 :=
  ⟨crc16_eq_ref_take buffer n hn, shift_mask, by decide, by decide⟩

set_option maxRecDepth 100000 in
/-- Witness for `crc16_refines_reference`: the nine check digits followed by one more
byte. -/
theorem crc16_refines_reference_witness :
    crc16 (checkDigits ++ [0]) 9 = crc16_ref ((checkDigits ++ [0]).take 9) ∧
    (∀ crc : Nat, crc < 65536 → (crc >>> 1) &&& 0x7FFF = crc >>> 1) ∧
    crc16 checkDigits 9 = 0x4B37 ∧ crc16_ref checkDigits = 0x4B37 :=
  crc16_refines_reference (checkDigits ++ [0]) 9 (by decide)

/-- C14: `crc16` over zero bytes returns `0xFFFF`, the initial value, whatever the buffer
holds. -/
theorem crc16_no_bytes (buffer : List Byte) : crc16 buffer 0 = 0xFFFF := by
  simp [crc16_zero]

/-! ## The residue -/

/-- Rounds on a value whose low `k` bits are zero shift it right by `k`. -/
theorem iterate_round_shift (k x : Nat) (hx : 2 ^ k * x < 65536) :
    crc16_round^[k] (2 ^ k * x) = x := by
  induction k with
  | zero => simp
  | succ k ih =>
    have h2 : 2 ^ (k + 1) * x = 2 * (2 ^ k * x) := by rw [Nat.pow_succ]; ring
    rw [Function.iterate_succ_apply, h2, crc16_round_even _ (by omega) (by omega)]
    rw [Nat.mul_div_cancel_left _ (by decide : 0 < 2)]
    exact ih (by omega)

/-- Adding its own low byte to a value clears the low byte. -/
theorem xor_low_byte (c : Nat) : c ^^^ (c % 256) = 2 ^ 8 * (c / 256) := by
  apply Nat.eq_of_testBit_eq
  intro i
  rw [Nat.testBit_xor, show (256 : Nat) = 2 ^ 8 from rfl, Nat.testBit_mod_two_pow,
    Nat.testBit_mul_pow_two, ← Nat.shiftRight_eq_div_pow, Nat.testBit_shiftRight]
  by_cases h : i < 8
  · simp [h, Nat.not_le.mpr h]
  · have h8 : 8 ≤ i := by omega
    simp [h, h8, Nat.add_sub_cancel' h8]

/-- Passing the two checksum bytes, low byte first, through `crc16` from the checksum itself
ends at zero. -/
theorem crc16_step_residue (c : Nat) (hc : c < 65536) :
    crc16_step (crc16_step c (toByte c)) (toByte (c >>> 8)) = 0 := by
  have hdiv : c / 256 < 256 := by omega
  have h1 : crc16_step c (toByte c) = c / 256 := by
    rw [crc16_step_eq c _ hc, toByte_val, xor_low_byte]
    exact iterate_round_shift 8 (c / 256) (by omega)
  have h2 : (toByte (c >>> 8)).val = c / 256 := by
    rw [toByte_shift, toByte_val]
    exact Nat.mod_eq_of_lt hdiv
  rw [h1, crc16_step_eq _ _ (by omega), h2, Nat.xor_self]
  have := iterate_round_shift 8 0 (by decide)
  simpa using this

/-- The checksum over a buffer that holds, right after `n` bytes, the checksum of those
bytes low byte first, is zero. -/
theorem residue_after_checksum (l : List Byte) (n : Nat)
    (hlo : l.getD n 0 = toByte (crc16 l n))
    (hhi : l.getD (n + 1) 0 = toByte (crc16 l n >>> 8)) : crc16 l (n + 2) = 0 := by
  rw [crc16_succ, crc16_succ, hlo, hhi]
  exact crc16_step_residue _ (crc16_lt l n)

theorem crc16_append (m t : List Byte) : crc16 (m ++ t) m.length = crc16 m m.length := by
  apply crc16_congr
  intro i hi
  simp [List.getD_eq_getElem?_getD, List.getElem?_append_left hi]

/-- The checksum `set_src` stores is the checksum of the buffer it returns. -/
theorem set_src_mem (buffer b' : Packet) (n : Nat) (h : set_src buffer n = some b') :
    b'.mem.getD (HEADER_LENGTH + n) 0 = toByte (crc16 b'.mem (HEADER_LENGTH + n)) ∧
    b'.mem.getD (HEADER_LENGTH + n + 1) 0 = toByte (crc16 b'.mem (HEADER_LENGTH + n) >>> 8) := by
  unfold set_src at h
  by_cases hn : n + 1 < 5
  · simp only [hn, ite_true, Option.some.injEq] at h
    have hsz := buffer.size
    have hc : crc16 b'.mem (HEADER_LENGTH + n) = crc16 buffer.mem (HEADER_LENGTH + n) := by
      apply crc16_congr
      intro i hi
      rw [← h]
      simp only [Packet.set_data, Packet.poke, HEADER_LENGTH, List.getD_eq_getElem?_getD,
        List.getElem?_set]
      simp only [HEADER_LENGTH] at hi
      have h1 : ¬ 5 + (n + 1) = i := by omega
      have h2 : ¬ 5 + n = i := by omega
      simp [h1, h2]
    rw [hc, ← h]
    simp only [Packet.set_data, Packet.poke, HEADER_LENGTH, List.getD_eq_getElem?_getD,
      List.getElem?_set, List.length_set]
    have h1 : ¬ 5 + (n + 1) = 5 + n := by omega
    have h2 : 5 + n < buffer.mem.length := by omega
    have h3 : 5 + n + 1 < buffer.mem.length := by omega
    have h4 : 5 + (n + 1) = 5 + n + 1 := by omega
    simp [h1, h2, h3, h4]
  · simp [hn] at h

/-- C18: the CRC residue. For every byte sequence `m` with `c = crc16(m)`, `crc16` of `m`
followed by the two bytes `c mod 256`, `c div 256` is `0`; and `crc16` over every complete
frame `set_src` produces, header, payload and checksum, is `0`. -/
theorem crc16_residue (m : List Byte) (buffer : Packet) (n : Nat) :
    crc16 (m ++ [toByte (crc16 m m.length % 256), toByte (crc16 m m.length / 256)])
      (m.length + 2) = 0 ∧
    (∀ b', set_src buffer n = some b' → crc16 b'.mem (HEADER_LENGTH + n + 2) = 0) := by
  constructor
  · apply residue_after_checksum
    · rw [crc16_append, toByte_mod, List.getD_append_right _ _ _ _ (Nat.le_refl _)]
      simp
    · rw [crc16_append, toByte_shift, List.getD_append_right _ _ _ _ (Nat.le_succ _)]
      simp
  · intro b' h
    obtain ⟨h1, h2⟩ := set_src_mem buffer b' n h
    exact residue_after_checksum b'.mem (HEADER_LENGTH + n) h1 h2

set_option maxRecDepth 100000 in
/-- Sample residues: the checksum over the whole identification frame, over a confirmation
frame and over the write command for `0x2000` is zero. -/
theorem residue_samples :
    crc16 identFrame 7 = 0 ∧ crc16 confirmFrame2000 8 = 0 ∧ crc16 (writeCommand 0x2000) 10 = 0 := by
  decide

/-! ## The two inbound shapes -/

/-- C16: for every `device_addr` in `0..65535`, every `data_addr`, every payload byte `p`
and every tail, the frame `set_src`/`sendPkt` emit for function `REQUEST` without payload
has 7 bytes, the frame they emit for function `WRITE` with payload `[p]` has 8 bytes, and
`receivePkt` on either frame followed by the tail returns `0`, leaves `device_addr`,
`function` and `data_addr` of the frame in the buffer, and leaves exactly the tail on the
line. -/
theorem roundtrip_consumes_frame (a : Nat) (da p : Byte) (tail : List Byte) (w : World)
    (scratch buffer : Packet) (ha : a ≤ 65535) :
    (∃ bytes, encode ⟨a, 4, da, []⟩ scratch = some bytes ∧ bytes.length = 7 ∧
      (receivePkt { w with rx := bytes ++ tail } buffer).1 = 0 ∧
      (receivePkt { w with rx := bytes ++ tail } buffer).2.2.device_addr = a ∧
      (receivePkt { w with rx := bytes ++ tail } buffer).2.2.function = FUNCTION_REQUEST ∧
      (receivePkt { w with rx := bytes ++ tail } buffer).2.2.data_addr = da.val ∧
      (receivePkt { w with rx := bytes ++ tail } buffer).2.1.rx = tail) ∧
    (∃ bytes, encode ⟨a, 2, da, [p]⟩ scratch = some bytes ∧ bytes.length = 8 ∧
      (receivePkt { w with rx := bytes ++ tail } buffer).1 = 0 ∧
      (receivePkt { w with rx := bytes ++ tail } buffer).2.2.device_addr = a ∧
      (receivePkt { w with rx := bytes ++ tail } buffer).2.2.function = FUNCTION_WRITE ∧
      (receivePkt { w with rx := bytes ++ tail } buffer).2.2.data_addr = da.val ∧
      (receivePkt { w with rx := bytes ++ tail } buffer).2.1.rx = tail) := by
  constructor
  · obtain ⟨t, he⟩ := encode_empty ⟨a, 4, da, []⟩ scratch rfl
    refine ⟨_, he, rfl, ?_⟩
    rw [receivePkt_request_ok { w with rx := _ ++ tail } buffer (toByte START_BYTE)
      (toByte a) (toByte (a / 256)) 4 da t tail rfl (by simp)]
    have hfl := store7_fields buffer (toByte START_BYTE) (toByte a) (toByte (a / 256)) 4 da
      (toByte (crc16 (toByte START_BYTE :: toByte a :: toByte (a / 256) :: 4 :: da :: t) 5))
      (toByte (crc16 (toByte START_BYTE :: toByte a :: toByte (a / 256) :: 4 :: da :: t) 5 >>> 8))
    rw [addr_bytes _ ha] at hfl
    exact ⟨rfl, hfl.1, hfl.2.1, hfl.2.2, rfl⟩
  · obtain ⟨t, he⟩ := encode_one ⟨a, 2, da, [p]⟩ scratch p rfl
    refine ⟨_, he, rfl, ?_⟩
    rw [receivePkt_write_ok { w with rx := _ ++ tail } buffer (toByte START_BYTE)
      (toByte a) (toByte (a / 256)) 2 da p t tail rfl (by simp)]
    have hfl := store8_fields buffer (toByte START_BYTE) (toByte a) (toByte (a / 256)) 2 da p
      (toByte (crc16 (toByte START_BYTE :: toByte a :: toByte (a / 256) :: 2 :: da :: p :: t) 6))
      (toByte (crc16 (toByte START_BYTE :: toByte a :: toByte (a / 256) :: 2 :: da :: p :: t) 6
        >>> 8))
    rw [addr_bytes _ ha] at hfl
    exact ⟨rfl, hfl.1, hfl.2.1, hfl.2.2, rfl⟩

set_option maxRecDepth 100000 in
/-- Witness for `roundtrip_consumes_frame`: the device at `0x1234`, `data_addr` 0, payload
byte 2, three bytes of tail. -/
theorem roundtrip_consumes_frame_witness :
    (∃ bytes, encode ⟨0x1234, 4, 0, []⟩ Packet.zero = some bytes ∧ bytes.length = 7 ∧
      (receivePkt { World.sink with rx := bytes ++ [1, 2, 3] } Packet.zero).1 = 0 ∧
      (receivePkt { World.sink with rx := bytes ++ [1, 2, 3] } Packet.zero).2.2.device_addr =
        0x1234 ∧
      (receivePkt { World.sink with rx := bytes ++ [1, 2, 3] } Packet.zero).2.2.function =
        FUNCTION_REQUEST ∧
      (receivePkt { World.sink with rx := bytes ++ [1, 2, 3] } Packet.zero).2.2.data_addr =
        (0 : Byte).val ∧
      (receivePkt { World.sink with rx := bytes ++ [1, 2, 3] } Packet.zero).2.1.rx = [1, 2, 3]) ∧
    (∃ bytes, encode ⟨0x1234, 2, 0, [2]⟩ Packet.zero = some bytes ∧ bytes.length = 8 ∧
      (receivePkt { World.sink with rx := bytes ++ [1, 2, 3] } Packet.zero).1 = 0 ∧
      (receivePkt { World.sink with rx := bytes ++ [1, 2, 3] } Packet.zero).2.2.device_addr =
        0x1234 ∧
      (receivePkt { World.sink with rx := bytes ++ [1, 2, 3] } Packet.zero).2.2.function =
        FUNCTION_WRITE ∧
      (receivePkt { World.sink with rx := bytes ++ [1, 2, 3] } Packet.zero).2.2.data_addr =
        (0 : Byte).val ∧
      (receivePkt { World.sink with rx := bytes ++ [1, 2, 3] } Packet.zero).2.1.rx = [1, 2, 3]) :=
  roundtrip_consumes_frame 0x1234 0 2 [1, 2, 3] World.sink Packet.zero Packet.zero (by decide)

/-! ## The start marker -/

/-- C19: `receivePkt` never checks the start marker. For every value `s` of byte 0, every
`device_addr` in `0..65535` and every `data_addr`, the seven bytes `s`, address low, address
high, 4, `data_addr` followed by `crc16` of those five bytes, low byte first, are accepted
and give that `device_addr`. Byte 0 only counts through the checksum: with the checksum of
the same five bytes under another first byte `s'`, the frame is rejected with the CRC
mismatch. -/
theorem start_marker_unchecked (s s' da : Byte) (a : Nat) (tail : List Byte) (w : World)
    (buffer : Packet) (ha : a ≤ 65535) :
    ((receivePkt { w with rx := [s, toByte a, toByte (a / 256), 4, da,
        toByte (crc16 [s, toByte a, toByte (a / 256), 4, da] 5 % 256),
        toByte (crc16 [s, toByte a, toByte (a / 256), 4, da] 5 / 256)] ++ tail } buffer).1 = 0 ∧
      (receivePkt { w with rx := [s, toByte a, toByte (a / 256), 4, da,
        toByte (crc16 [s, toByte a, toByte (a / 256), 4, da] 5 % 256),
        toByte (crc16 [s, toByte a, toByte (a / 256), 4, da] 5 / 256)] ++ tail }
        buffer).2.2.device_addr = a) ∧
    (s ≠ s' →
      (receivePkt { w with rx := [s, toByte a, toByte (a / 256), 4, da,
        toByte (crc16 [s', toByte a, toByte (a / 256), 4, da] 5 % 256),
        toByte (crc16 [s', toByte a, toByte (a / 256), 4, da] 5 / 256)] ++ tail } buffer).1 = -1 ∧
      (failure { w with rx := [s, toByte a, toByte (a / 256), 4, da,
        toByte (crc16 [s', toByte a, toByte (a / 256), 4, da] 5 % 256),
        toByte (crc16 [s', toByte a, toByte (a / 256), 4, da] 5 / 256)] ++ tail }
        buffer).map Msg.isCrcMismatch = some true) := by
  constructor
  · rw [toByte_mod (crc16 [s, toByte a, toByte (a / 256), 4, da] 5),
      ← toByte_shift (crc16 [s, toByte a, toByte (a / 256), 4, da] 5)]
    rw [receivePkt_request_ok { w with rx := _ ++ tail } buffer s (toByte a) (toByte (a / 256))
      4 da [] tail rfl (by simp)]
    have hfl := store7_fields buffer s (toByte a) (toByte (a / 256)) 4 da
      (toByte (crc16 [s, toByte a, toByte (a / 256), 4, da] 5))
      (toByte (crc16 [s, toByte a, toByte (a / 256), 4, da] 5 >>> 8))
    rw [addr_bytes _ ha] at hfl
    exact ⟨rfl, hfl.1⟩
  · intro hs
    rw [toByte_mod (crc16 [s', toByte a, toByte (a / 256), 4, da] 5),
      ← toByte_shift (crc16 [s', toByte a, toByte (a / 256), 4, da] 5)]
    have hne : crc16 [s, toByte a, toByte (a / 256), 4, da] 5 ≠
        crc16 [s', toByte a, toByte (a / 256), 4, da] 5 := by
      apply crc16_ne_of_byte _ _ 5 0 (by decide)
      · simpa using hs
      · intro j hj hj0
        interval_cases j <;> simp at hj0 ⊢
    have hreq := receivePkt_request_eq { w with rx := [s, toByte a, toByte (a / 256), 4, da,
        toByte (crc16 [s', toByte a, toByte (a / 256), 4, da] 5),
        toByte (crc16 [s', toByte a, toByte (a / 256), 4, da] 5 >>> 8)] ++ tail } buffer
        s (toByte a) (toByte (a / 256)) 4 da
        (toByte (crc16 [s', toByte a, toByte (a / 256), 4, da] 5))
        (toByte (crc16 [s', toByte a, toByte (a / 256), 4, da] 5 >>> 8)) tail (by simp) rfl
    have hc : crc16 ([s, toByte a, toByte (a / 256), 4, da,
        toByte (crc16 [s', toByte a, toByte (a / 256), 4, da] 5),
        toByte (crc16 [s', toByte a, toByte (a / 256), 4, da] 5 >>> 8)] ++ tail) 5 =
        crc16 [s, toByte a, toByte (a / 256), 4, da] 5 := crc16_prefix5 _ _ _ _ _ _ _
    have hl : le16 ([s, toByte a, toByte (a / 256), 4, da,
        toByte (crc16 [s', toByte a, toByte (a / 256), 4, da] 5),
        toByte (crc16 [s', toByte a, toByte (a / 256), 4, da] 5 >>> 8)] ++ tail) 5 =
        crc16 [s', toByte a, toByte (a / 256), 4, da] 5 := by
      simp only [le16, byteAt, List.cons_append, List.getD_cons_succ, List.getD_cons_zero]
      exact crc_bytes _ (crc16_lt _ _)
    simp only [hc, hl, ne_eq, hne, not_false_eq_true, ite_true] at hreq
    rw [failure, receiveEvents, hreq]
    simp [messages, Msg.isCrcMismatch]

set_option maxRecDepth 100000 in
/-- Witness for `start_marker_unchecked`: first byte `0xAA` instead of `0x55`, the device at
`0x1234`, one byte of tail. -/
theorem start_marker_unchecked_witness :
    ((receivePkt { World.sink with rx := [(0xAA : Byte), toByte 0x1234, toByte (0x1234 / 256), 4,
        (0 : Byte),
        toByte (crc16 [(0xAA : Byte), toByte 0x1234, toByte (0x1234 / 256), 4, (0 : Byte)] 5 % 256),
        toByte (crc16 [(0xAA : Byte), toByte 0x1234, toByte (0x1234 / 256), 4, (0 : Byte)] 5 / 256)] ++
        [9] }
        Packet.zero).1 = 0 ∧
      (receivePkt { World.sink with rx := [(0xAA : Byte), toByte 0x1234, toByte (0x1234 / 256), 4,
        (0 : Byte),
        toByte (crc16 [(0xAA : Byte), toByte 0x1234, toByte (0x1234 / 256), 4, (0 : Byte)] 5 % 256),
        toByte (crc16 [(0xAA : Byte), toByte 0x1234, toByte (0x1234 / 256), 4, (0 : Byte)] 5 / 256)] ++
        [9] }
        Packet.zero).2.2.device_addr = 0x1234) ∧
    ((0xAA : Byte) ≠ 0x55 →
      (receivePkt { World.sink with rx := [(0xAA : Byte), toByte 0x1234, toByte (0x1234 / 256), 4,
        (0 : Byte),
        toByte (crc16 [(0x55 : Byte), toByte 0x1234, toByte (0x1234 / 256), 4, (0 : Byte)] 5 % 256),
        toByte (crc16 [(0x55 : Byte), toByte 0x1234, toByte (0x1234 / 256), 4, (0 : Byte)] 5 / 256)] ++
        [9] }
        Packet.zero).1 = -1 ∧
      (failure { World.sink with rx := [(0xAA : Byte), toByte 0x1234, toByte (0x1234 / 256), 4,
        (0 : Byte),
        toByte (crc16 [(0x55 : Byte), toByte 0x1234, toByte (0x1234 / 256), 4, (0 : Byte)] 5 % 256),
        toByte (crc16 [(0x55 : Byte), toByte 0x1234, toByte (0x1234 / 256), 4, (0 : Byte)] 5 / 256)] ++
        [9] }
        Packet.zero).map Msg.isCrcMismatch = some true) :=
  start_marker_unchecked 0xAA 0x55 0 0x1234 [9] World.sink Packet.zero (by decide)

/-! ## The new address -/

/-- The two address bytes of the write command hold the target address. -/
theorem writeCommand_addr (t : Nat) (ht : t ≤ 65535) :
    byteAt (writeCommand t) 6 + 256 * byteAt (writeCommand t) 7 = t := by
  have e1 : t % 256 % 256 = t % 256 := Nat.mod_mod _ _
  have e2 : t / 256 % 256 = t / 256 := Nat.mod_eq_of_lt (by omega)
  simp only [writeCommand, byteAt, List.cons_append, List.getD_cons_succ, List.getD_cons_zero,
    toByte_val, e1, e2]
  omega

/-- The events of a run that rejects the new address. -/
theorem events_invalid (argc v : Nat) (w : World) (buffer : Packet)
    (h : main argc v w buffer = some (255, w.print .invalidAddress)) :
    events argc v w buffer = [.print .invalidAddress] := by
  simp [events, h]

/-- A run with a new address in `1..65535` does not reject it. -/
theorem events_valid (argc v : Nat) (w : World) (buffer : Packet) (h : 2 < argc)
    (h1 : 1 ≤ v) (h2 : v ≤ 65535) : events argc v w buffer ≠ [.print .invalidAddress] := by
  by_cases hs : Started argc v w
  · obtain ⟨w2, cmd, -, he⟩ := events_started argc v w buffer hs
    rw [he]
    simp
  · have h2' : ¬ argc < 2 := by omega
    have hor : ¬ (65535 < v ∨ v = 0) := by omega
    by_cases ho : w.canOpen = true
    · by_cases hp : w.canSetParams = true
      · exact absurd ⟨by omega, fun _ => ⟨h1, h2⟩, ho, hp⟩ hs
      · have hm : main argc v w buffer = some (255, (w.print .paramsFailed).log .close) := by
          simp [main, h2', h, hor, ho, hp]
        simp [events, hm]
    · have hm : main argc v w buffer = some (255, w.print .openFailed) := by
        simp [main, h2', h, hor, ho]
      simp [events, hm]

/-- C15: when a new address is given (`argc > 2`) with parsed value `v`, the run rejects it,
exiting with status `255` after the invalid-address message and nothing else, whatever the
port would do, exactly when `v = 0` or `v > 65535`; for `1 <= v <= 65535` it goes on, and
once the port is open and configured and the device identified, the address it announces
and sends is `v`. So whenever a run calls `write`, `v` is in `1..65535` and the two address
bytes of the command, low byte first, hold `v` itself. -/
theorem new_address_validation (argc v : Nat) (w : World) (buffer : Packet) (h : 2 < argc) :
    (events argc v w buffer = [.print .invalidAddress] ↔ (v = 0 ∨ 65535 < v)) ∧
    ((v = 0 ∨ 65535 < v) →
      main argc v w buffer = some (255, w.print .invalidAddress) ∧
      exitStatus argc v w buffer = some 255) ∧
    (1 ≤ v ∧ v ≤ 65535 → w.canOpen = true → w.canSetParams = true →
      (awaitIdent w buffer).1 = 0 →
      .print (.setting v) ∈ events argc v w buffer ∧
      writes (events argc v w buffer) = [.write (writeCommand v) (writeReturn w 10)]) ∧
    (∀ bytes r, Event.write bytes r ∈ events argc v w buffer →
      1 ≤ v ∧ v ≤ 65535 ∧ byteAt bytes 6 + 256 * byteAt bytes 7 = v) := by
  have h2' : ¬ argc < 2 := by omega
  have hinv : (v = 0 ∨ 65535 < v) → main argc v w buffer = some (255, w.print .invalidAddress) := by
    intro hv
    have hor : 65535 < v ∨ v = 0 := hv.symm
    simp [main, h2', h, hor]
  refine ⟨⟨?_, fun hv => events_invalid argc v w buffer (hinv hv)⟩, ?_, ?_, ?_⟩
  · intro he
    by_contra hv
    exact events_valid argc v w buffer h (by omega) (by omega) he
  · intro hv
    exact ⟨hinv hv, by simp [exitStatus, hinv hv]⟩
  · rintro ⟨h1, h2⟩ ho hp hid
    have hs : Started argc v w := ⟨by omega, fun _ => ⟨h1, h2⟩, ho, hp⟩
    have hne : ¬ (awaitIdent w buffer).1 = -1 := by rw [hid]; decide
    refine ⟨?_, ?_⟩
    · obtain ⟨w2, cmd, -, he⟩ := events_started argc v w buffer hs
      rw [he, if_neg hne, if_pos h]
      simp
    · rw [writes_events_started argc v w buffer hs, if_neg hne, if_pos h]
  · intro bytes r hmem
    have hw : Event.write bytes r ∈ writes (events argc v w buffer) :=
      (mem_writes _ _).mpr ⟨hmem, rfl⟩
    by_cases hs : Started argc v w
    · obtain ⟨h1, h2⟩ := hs.2.1 h
      rw [writes_events_started argc v w buffer hs] at hw
      split_ifs at hw with ha
      · cases hw
      · simp only [List.mem_singleton, Event.write.injEq] at hw
        rw [hw.1]
        exact ⟨h1, h2, writeCommand_addr v h2⟩
    · rw [(events_not_started argc v w buffer hs).1] at hw
      cases hw

set_option maxRecDepth 100000 in
/-- Witness for `new_address_validation`: the value `70000` on a port that would open and
deliver the identification frame. -/
theorem new_address_validation_witness :
    main 3 70000 (World.line identFrame) Packet.zero =
      some (255, (World.line identFrame).print .invalidAddress) ∧
    exitStatus 3 70000 (World.line identFrame) Packet.zero = some 255 :=
  (new_address_validation 3 70000 (World.line identFrame) Packet.zero (by decide)).2.1
    (by decide)

/-! ## One flipped bit in an accepted frame -/

/-- Seven bytes with a function byte that is neither `WRITE` nor `REQUEST`: the call fails
with the unexpected function. -/
theorem receivePkt_unexpected (w : World) (buffer : Packet) (h7 : 7 ≤ w.rx.length)
    (h2 : byteAt w.rx 3 ≠ 2) (h4 : byteAt w.rx 3 ≠ 4) :
    (receivePkt w buffer).1 = -1 ∧
      failure w buffer = some (.unexpectedFunction (byteAt w.rx 3)) := by
  rcases receivePkt_cases w buffer with ⟨h, he⟩ |
    ⟨b0, b1, b2, b3, b4, b5, b6, rest, hrx, hb2, hb4, he⟩ |
    ⟨b0, b1, b2, b3, b4, b5, b6, rest, hrx, hb4, he⟩ |
    ⟨b0, b1, b2, b3, b4, b5, b6, hrx, hb2, he⟩ |
    ⟨b0, b1, b2, b3, b4, b5, b6, b7, rest, hrx, hb2, he⟩
  · omega
  · have hb : byteAt w.rx 3 = b3.val := by simp [byteAt, hrx]
    simp [he, hb, failure, receiveEvents, messages]
  · exact absurd (by simp [byteAt, hrx, hb4]) h4
  · exact absurd (by simp [byteAt, hrx, hb2]) h2
  · exact absurd (by simp [byteAt, hrx, hb2]) h2

/-- A `REQUEST` frame whose checksum bytes do not match: the call fails with the CRC
mismatch. -/
theorem receivePkt_request_bad (w : World) (buffer : Packet) (h7 : 7 ≤ w.rx.length)
    (hf : byteAt w.rx 3 = 4) (hne : crc16 w.rx 5 ≠ le16 w.rx 5) :
    (receivePkt w buffer).1 = -1 ∧
      failure w buffer = some (.crcMismatch (le16 w.rx 5) (crc16 w.rx 5)) := by
  rcases receivePkt_cases w buffer with ⟨h, he⟩ |
    ⟨b0, b1, b2, b3, b4, b5, b6, rest, hrx, hb2, hb4, he⟩ |
    ⟨b0, b1, b2, b3, b4, b5, b6, rest, hrx, hb4, he⟩ |
    ⟨b0, b1, b2, b3, b4, b5, b6, hrx, hb2, he⟩ |
    ⟨b0, b1, b2, b3, b4, b5, b6, b7, rest, hrx, hb2, he⟩
  · omega
  · exact absurd (by simpa [byteAt, hrx] using hf) hb4
  · simp [he, hne, failure, receiveEvents, messages]
  · have : byteAt w.rx 3 = 2 := by simp [byteAt, hrx, hb2]
    omega
  · have : byteAt w.rx 3 = 2 := by simp [byteAt, hrx, hb2]
    omega

/-- A `WRITE` frame whose checksum bytes do not match: the call fails with the CRC
mismatch. -/
theorem receivePkt_write_bad (w : World) (buffer : Packet) (h8 : 8 ≤ w.rx.length)
    (hf : byteAt w.rx 3 = 2) (hne : crc16 w.rx 6 ≠ le16 w.rx 6) :
    (receivePkt w buffer).1 = -1 ∧
      failure w buffer = some (.crcMismatch (le16 w.rx 6) (crc16 w.rx 6)) := by
  rcases receivePkt_cases w buffer with ⟨h, he⟩ |
    ⟨b0, b1, b2, b3, b4, b5, b6, rest, hrx, hb2, hb4, he⟩ |
    ⟨b0, b1, b2, b3, b4, b5, b6, rest, hrx, hb4, he⟩ |
    ⟨b0, b1, b2, b3, b4, b5, b6, hrx, hb2, he⟩ |
    ⟨b0, b1, b2, b3, b4, b5, b6, b7, rest, hrx, hb2, he⟩
  · omega
  · exact absurd (by simpa [byteAt, hrx] using hf) hb2
  · have : byteAt w.rx 3 = 4 := by simp [byteAt, hrx, hb4]
    omega
  · have : w.rx.length = 7 := by simp [hrx]
    omega
  · simp [he, hne, failure, receiveEvents, messages]

theorem byteAt_flipBit_ne (l : List Byte) (k j : Nat) (h : j ≠ k / 8) :
    byteAt (flipBit l k) j = byteAt l j := by
  simp only [byteAt, getD_flipBit_ne l k j h]

theorem byteAt_flipBit_self (l : List Byte) (k : Nat) (h : k / 8 < l.length) :
    byteAt (flipBit l k) (k / 8) ≠ byteAt l (k / 8) := by
  simp only [byteAt, getD_flipBit_self l k h]
  exact fun hv => flipByte_ne _ _ (Fin.ext hv)

theorem byteAt_lt (l : List Byte) (j : Nat) : byteAt l j < 256 := (l.getD j 0).isLt

/-- No single flipped bit turns `WRITE` or `REQUEST` into `WRITE` or `REQUEST`. -/
theorem function_flip (b : Byte) (k : Nat) (hb : b.val = 2 ∨ b.val = 4) :
    (flipByte b k).val ≠ 2 ∧ (flipByte b k).val ≠ 4 := by
  have hk : k % 8 < 8 := Nat.mod_lt k (by decide)
  simp only [flipByte, toByte_val]
  rcases hb with hb | hb <;> rw [hb] <;> generalize k % 8 = j at hk <;>
    interval_cases j <;> decide

/-- One flipped bit in an accepted `REQUEST` frame: the call fails, with the unexpected
function if the bit is in byte 3 and with the CRC mismatch otherwise. -/
theorem flip_request (w : World) (buffer : Packet) (k : Nat) (h7 : 7 ≤ w.rx.length)
    (hf : byteAt w.rx 3 = 4) (hc : le16 w.rx 5 = crc16 w.rx 5) (hk : k < 56) :
    (receivePkt (w.flip k) buffer).1 = -1 ∧
      failure (w.flip k) buffer =
        some (if k / 8 = 3 then .unexpectedFunction (byteAt (w.flip k).rx 3)
          else .crcMismatch (le16 (w.flip k).rx 5) (crc16 (w.flip k).rx 5)) := by
  have hlen : 7 ≤ (w.flip k).rx.length := by
    simp only [World.flip, length_flipBit]; exact h7
  have hi : k / 8 < w.rx.length := by omega
  have hrx : (w.flip k).rx = flipBit w.rx k := rfl
  by_cases h3 : k / 8 = 3
  · rw [if_pos h3]
    have hfl : byteAt (w.flip k).rx 3 = (flipByte (w.rx.getD 3 0) k).val := by
      rw [hrx, byteAt, ← h3, getD_flipBit_self w.rx k hi]
    obtain ⟨n2, n4⟩ := function_flip (w.rx.getD 3 0) k (Or.inr hf)
    exact receivePkt_unexpected (w.flip k) buffer hlen (by rw [hfl]; exact n2)
      (by rw [hfl]; exact n4)
  · rw [if_neg h3]
    have hf' : byteAt (w.flip k).rx 3 = 4 := by
      rw [hrx, byteAt_flipBit_ne w.rx k 3 (Ne.symm h3)]; exact hf
    apply receivePkt_request_bad (w.flip k) buffer hlen hf'
    rw [hrx]
    by_cases h5 : k / 8 < 5
    · have hl : le16 (flipBit w.rx k) 5 = le16 w.rx 5 := by
        simp only [le16]
        rw [byteAt_flipBit_ne w.rx k 5 (by omega), byteAt_flipBit_ne w.rx k 6 (by omega)]
      rw [hl, hc]
      apply crc16_ne_of_byte (flipBit w.rx k) w.rx 5 (k / 8) h5
      · rw [getD_flipBit_self w.rx k hi]; exact flipByte_ne _ _
      · intro j _ hj; exact getD_flipBit_ne w.rx k j hj
    · have hcr : crc16 (flipBit w.rx k) 5 = crc16 w.rx 5 :=
        crc16_congr _ _ 5 (fun j hj => getD_flipBit_ne w.rx k j (by omega))
      rw [hcr, ← hc]
      have hne := byteAt_flipBit_self w.rx k hi
      have hb5 := byteAt_lt w.rx 5
      have hb5' := byteAt_lt (flipBit w.rx k) 5
      simp only [le16, show 5 + 1 = 6 from rfl]
      rcases (show k / 8 = 5 ∨ k / 8 = 6 by omega) with h | h
      · rw [h] at hne
        rw [byteAt_flipBit_ne w.rx k 6 (by omega)]
        omega
      · rw [h] at hne
        rw [byteAt_flipBit_ne w.rx k 5 (by omega)]
        omega

/-- One flipped bit in an accepted `WRITE` frame: the call fails, with the unexpected
function if the bit is in byte 3 and with the CRC mismatch otherwise. -/
theorem flip_write (w : World) (buffer : Packet) (k : Nat) (h8 : 8 ≤ w.rx.length)
    (hf : byteAt w.rx 3 = 2) (hc : le16 w.rx 6 = crc16 w.rx 6) (hk : k < 64) :
    (receivePkt (w.flip k) buffer).1 = -1 ∧
      failure (w.flip k) buffer =
        some (if k / 8 = 3 then .unexpectedFunction (byteAt (w.flip k).rx 3)
          else .crcMismatch (le16 (w.flip k).rx 6) (crc16 (w.flip k).rx 6)) := by
  have hlen : 8 ≤ (w.flip k).rx.length := by
    simp only [World.flip, length_flipBit]; exact h8
  have hi : k / 8 < w.rx.length := by omega
  have hrx : (w.flip k).rx = flipBit w.rx k := rfl
  by_cases h3 : k / 8 = 3
  · rw [if_pos h3]
    have hfl : byteAt (w.flip k).rx 3 = (flipByte (w.rx.getD 3 0) k).val := by
      rw [hrx, byteAt, ← h3, getD_flipBit_self w.rx k hi]
    obtain ⟨n2, n4⟩ := function_flip (w.rx.getD 3 0) k (Or.inl hf)
    exact receivePkt_unexpected (w.flip k) buffer (by omega) (by rw [hfl]; exact n2)
      (by rw [hfl]; exact n4)
  · rw [if_neg h3]
    have hf' : byteAt (w.flip k).rx 3 = 2 := by
      rw [hrx, byteAt_flipBit_ne w.rx k 3 (Ne.symm h3)]; exact hf
    apply receivePkt_write_bad (w.flip k) buffer hlen hf'
    rw [hrx]
    by_cases h6 : k / 8 < 6
    · have hl : le16 (flipBit w.rx k) 6 = le16 w.rx 6 := by
        simp only [le16]
        rw [byteAt_flipBit_ne w.rx k 6 (by omega), byteAt_flipBit_ne w.rx k 7 (by omega)]
      rw [hl, hc]
      apply crc16_ne_of_byte (flipBit w.rx k) w.rx 6 (k / 8) h6
      · rw [getD_flipBit_self w.rx k hi]; exact flipByte_ne _ _
      · intro j _ hj; exact getD_flipBit_ne w.rx k j hj
    · have hcr : crc16 (flipBit w.rx k) 6 = crc16 w.rx 6 :=
        crc16_congr _ _ 6 (fun j hj => getD_flipBit_ne w.rx k j (by omega))
      rw [hcr, ← hc]
      have hne := byteAt_flipBit_self w.rx k hi
      have hb6 := byteAt_lt w.rx 6
      have hb6' := byteAt_lt (flipBit w.rx k) 6
      simp only [le16, show 6 + 1 = 7 from rfl]
      rcases (show k / 8 = 6 ∨ k / 8 = 7 by omega) with h | h
      · rw [h] at hne
        rw [byteAt_flipBit_ne w.rx k 7 (by omega)]
        omega
      · rw [h] at hne
        rw [byteAt_flipBit_ne w.rx k 6 (by omega)]
        omega

/-- An accepted frame is a `REQUEST` frame of 7 bytes or a `WRITE` frame of 8 bytes with
matching checksum, and the call consumes exactly the frame. -/
theorem accepted_shape (w : World) (buffer : Packet) (hacc : (receivePkt w buffer).1 = 0) :
    (7 ≤ w.rx.length ∧ byteAt w.rx 3 = 4 ∧ le16 w.rx 5 = crc16 w.rx 5 ∧
      consumed w buffer = 7) ∨
    (8 ≤ w.rx.length ∧ byteAt w.rx 3 = 2 ∧ le16 w.rx 6 = crc16 w.rx 6 ∧
      consumed w buffer = 8) := by
  rcases receivePkt_cases w buffer with ⟨h, he⟩ |
    ⟨b0, b1, b2, b3, b4, b5, b6, rest, hrx, hb2, hb4, he⟩ |
    ⟨b0, b1, b2, b3, b4, b5, b6, rest, hrx, hb4, he⟩ |
    ⟨b0, b1, b2, b3, b4, b5, b6, hrx, hb2, he⟩ |
    ⟨b0, b1, b2, b3, b4, b5, b6, b7, rest, hrx, hb2, he⟩
  · cases hE : w.rxErr <;> simp [he, hE] at hacc
  · simp [he] at hacc
  · have hb : byteAt w.rx 3 = 4 := by simp [byteAt, hrx, hb4]
    have hl : 7 ≤ w.rx.length := by simp [hrx]
    by_cases hc : crc16 w.rx 5 = le16 w.rx 5
    · refine Or.inl ⟨hl, hb, hc.symm, ?_⟩
      simp only [consumed, he, hc, ne_eq, not_true_eq_false, ite_false, World.log_rx]
      simp only [hrx, List.length_cons]
      omega
    · simp [he, hc] at hacc
  · cases hE : w.rxErr <;> simp [he, hE] at hacc
  · have hb : byteAt w.rx 3 = 2 := by simp [byteAt, hrx, hb2]
    have hl : 8 ≤ w.rx.length := by simp [hrx]
    by_cases hc : crc16 w.rx 6 = le16 w.rx 6
    · refine Or.inr ⟨hl, hb, hc.symm, ?_⟩
      simp only [consumed, he, hc, ne_eq, not_true_eq_false, ite_false, World.log_rx]
      simp only [hrx, List.length_cons]
      omega
    · simp [he, hc] at hacc

/-- C11, as amended: for every byte sequence that `receivePkt` accepts as a frame (a 7-byte
`REQUEST` frame or an 8-byte `WRITE` frame with correct checksum) and every single bit
position within that frame, `receivePkt` applied to the frame with that one bit flipped
fails; the failure is the checksum-mismatch error for every bit outside the function byte
(byte 3), and the unexpected-function error for a bit of the function byte. -/
theorem single_bit_flip_rejected (w : World) (buffer : Packet) (k : Nat)
    (hframe : (7 ≤ w.rx.length ∧ byteAt w.rx 3 = FUNCTION_REQUEST ∧
        le16 w.rx 5 = crc16 w.rx 5 ∧ k < 8 * 7) ∨
      (8 ≤ w.rx.length ∧ byteAt w.rx 3 = FUNCTION_WRITE ∧
        le16 w.rx 6 = crc16 w.rx 6 ∧ k < 8 * 8)) :
    (receivePkt (w.flip k) buffer).1 = -1 ∧
    (k / 8 ≠ 3 → FlipGivesCrcMismatch w buffer k) ∧
    (k / 8 = 3 → (failure (w.flip k) buffer).map Msg.isUnexpectedFunction = some true) := by
  rcases hframe with ⟨h7, hf, hc, hk⟩ | ⟨h8, hf, hc, hk⟩
  · obtain ⟨hr, hfail⟩ := flip_request w buffer k h7 hf hc (by omega)
    refine ⟨hr, fun h3 => ⟨hr, ?_⟩, fun h3 => ?_⟩
    · rw [hfail, if_neg h3]; rfl
    · rw [hfail, if_pos h3]; rfl
  · obtain ⟨hr, hfail⟩ := flip_write w buffer k h8 hf hc (by omega)
    refine ⟨hr, fun h3 => ⟨hr, ?_⟩, fun h3 => ?_⟩
    · rw [hfail, if_neg h3]; rfl
    · rw [hfail, if_pos h3]; rfl

set_option maxRecDepth 100000 in
/-- Witness for `single_bit_flip_rejected`: the lowest bit of the first checksum byte of the
identification frame. -/
theorem single_bit_flip_rejected_witness :
    (receivePkt ((World.line identFrame).flip 40) Packet.zero).1 = -1 ∧
    (40 / 8 ≠ 3 → FlipGivesCrcMismatch (World.line identFrame) Packet.zero 40) ∧
    (40 / 8 = 3 → (failure ((World.line identFrame).flip 40) Packet.zero).map
      Msg.isUnexpectedFunction = some true) :=
  single_bit_flip_rejected (World.line identFrame) Packet.zero 40 (by decide)

set_option maxRecDepth 100000 in
/-- C11 as stated fails: the identification frame is accepted, and with the lowest bit of
its function byte flipped (function 5) `receivePkt` fails with the unexpected-function
error, not with the checksum mismatch. -/
theorem flip_function_byte_not_crc :
    (receivePkt (World.line identFrame) Packet.zero).1 = 0 ∧
    failure ((World.line identFrame).flip 24) Packet.zero = some (.unexpectedFunction 5) ∧
    ¬ FlipGivesCrcMismatch (World.line identFrame) Packet.zero 24 := by
  decide

/-- C17: no single-bit corruption of an accepted frame is accepted. When `receivePkt`
returns `0` on a line, then with any one bit among the bytes it consumed flipped it returns
`-1`; its error is the unexpected function when the bit lies in the function byte (byte 3),
and the CRC mismatch when it lies in any other byte, the two checksum bytes included. -/
theorem no_single_bit_corruption_accepted (w : World) (buffer : Packet) (k : Nat)
    (hacc : (receivePkt w buffer).1 = 0) (hk : k < 8 * consumed w buffer) :
    (receivePkt (w.flip k) buffer).1 = -1 ∧
    failure (w.flip k) buffer =
      some (if k / 8 = 3 then .unexpectedFunction (byteAt (w.flip k).rx 3)
        else .crcMismatch (le16 (w.flip k).rx (consumed w buffer - 2))
          (crc16 (w.flip k).rx (consumed w buffer - 2))) := by
  rcases accepted_shape w buffer hacc with ⟨h7, hf, hc, hn⟩ | ⟨h8, hf, hc, hn⟩
  · rw [hn] at hk ⊢
    exact flip_request w buffer k h7 hf hc (by omega)
  · rw [hn] at hk ⊢
    exact flip_write w buffer k h8 hf hc (by omega)

set_option maxRecDepth 100000 in
/-- Witness for `no_single_bit_corruption_accepted`: the highest bit of the payload byte of
a `WRITE` confirmation. -/
theorem no_single_bit_corruption_accepted_witness :
    (receivePkt ((World.line confirmFrame2000).flip 47) Packet.zero).1 = -1 ∧
    failure ((World.line confirmFrame2000).flip 47) Packet.zero =
      some (if 47 / 8 = 3 then
          .unexpectedFunction (byteAt ((World.line confirmFrame2000).flip 47).rx 3)
        else .crcMismatch
          (le16 ((World.line confirmFrame2000).flip 47).rx
            (consumed (World.line confirmFrame2000) Packet.zero - 2))
          (crc16 ((World.line confirmFrame2000).flip 47).rx
            (consumed (World.line confirmFrame2000) Packet.zero - 2))) :=
  no_single_bit_corruption_accepted (World.line confirmFrame2000) Packet.zero 47 (by decide)
    (by decide)

end Hzaddr
